import Mathlib

/-!
Shallow embedding of the UNO host-authority game server
(`src/App.tsx`, `MockGameServer` and its pure helper functions,
data model from `src/types.ts`), together with theorems settling
the specification claims about deck conservation, move legality,
the Uno penalty, round resolution, turn advancement, and the
`nextRound` life cycle.

Randomness (`Math.random`) is modelled by an explicit parameter
`rand : Nat → Nat`; card identities (`uuidv4()`) are modelled as
sequentially assigned natural numbers.  JavaScript code paths that
would throw or loop forever (popping an all-black deck, the seat
walk with no active player) are modelled with `Option`: `none`
means the original program produces no resulting state.
-/

namespace Uno

/-- `CardColor` from `src/types.ts`. -/
inductive CardColor
  | red | yellow | green | blue | black
deriving DecidableEq, Repr

/-- `CardType` from `src/types.ts`. -/
inductive CardType
  | number | skip | reverse | draw2 | wild | wild4
deriving DecidableEq, Repr

/-- `Card` from `src/types.ts`; `value?` is `Option Nat`. -/
structure Card where
  id : Nat
  color : CardColor
  type : CardType
  value : Option Nat
deriving DecidableEq, Repr

/-- `Player` from `src/types.ts`. -/
structure Player where
  id : String
  name : String
  avatar : String
  hand : List Card
  isHost : Bool
  score : Nat
  isEliminated : Bool
  hasCalledUno : Bool
  isBot : Bool
  isSpectator : Bool
deriving DecidableEq, Repr

/-- `GameStatus` from `src/types.ts`. -/
inductive GameStatus
  | LOBBY | PLAYING | ROUND_OVER | GAME_OVER
deriving DecidableEq, Repr

/-- `GameMode` from `src/types.ts`. -/
inductive GameMode
  | QUICK | TOURNAMENT
deriving DecidableEq, Repr

/-- `GameState` from `src/types.ts` (the fields the host game logic
reads or writes; the chat/reaction annex is not modelled). -/
structure GameState where
  roomId : String
  players : List Player
  deck : List Card
  discardPile : List Card
  currentPlayerIndex : Nat
  direction : Int
  status : GameStatus
  winner : Option Player
  currentColor : CardColor
  turnTimer : Nat
  log : List String
  mode : GameMode
deriving DecidableEq, Repr

/-- `COLORS` from `src/constants.ts`. -/
def COLORS : List CardColor :=
  [CardColor.red, CardColor.yellow, CardColor.green, CardColor.blue]

/-- The card list built by `generateDeck` before shuffling: for each
color one 0, two each of 1–9, two each of skip/reverse/draw2, then
4 wild + 4 wild4; ids are assigned in construction order. -/
def baseCardSpecs : List (CardColor × CardType × Option Nat) :=
  (COLORS.map (fun c =>
    (c, CardType.number, some 0) ::
      ((List.range 9).map (fun i =>
        [(c, CardType.number, some (i + 1)), (c, CardType.number, some (i + 1))])).flatten ++
      ([CardType.skip, CardType.reverse, CardType.draw2].map (fun t =>
        [(c, t, (none : Option Nat)), (c, t, none)])).flatten)).flatten ++
  ((List.range 4).map (fun _ =>
    [(CardColor.black, CardType.wild, (none : Option Nat)),
     (CardColor.black, CardType.wild4, none)])).flatten

/-- The unshuffled deck of `generateDeck`, with sequential ids. -/
def unshuffledDeck : List Card :=
  baseCardSpecs.enum.map (fun p =>
    { id := p.1, color := p.2.1, type := p.2.2.1, value := p.2.2.2 })

/-- Swap the entries at positions `i` and `j`
(`[newDeck[i], newDeck[j]] = [newDeck[j], newDeck[i]]`). -/
def listSwap {α : Type} (l : List α) (i j : Nat) : List α :=
  match l[i]?, l[j]? with
  | some a, some b => (l.set i b).set j a
  | _, _ => l

/-- The Fisher–Yates loop of `shuffleDeck`: iterates `i` from
`l.length - 1` down to `1`, swapping position `i` with position
`rand i % (i + 1)` (the model of `Math.floor(Math.random()*(i+1))`). -/
def shuffleAux (rand : Nat → Nat) : Nat → List Card → List Card
  | 0, l => l
  | n + 1, l => shuffleAux rand n (listSwap l (n + 1) (rand (n + 1) % (n + 2)))

/-- `shuffleDeck` from `src/App.tsx`. -/
def shuffleDeck (rand : Nat → Nat) (l : List Card) : List Card :=
  shuffleAux rand (l.length - 1) l

/-- `generateDeck` from `src/App.tsx`. -/
def generateDeck (rand : Nat → Nat) : List Card :=
  shuffleDeck rand unshuffledDeck

/-- `isValidMove` from `src/App.tsx`. -/
def isValidMove (card topCard : Card) (currentColor : CardColor) : Bool :=
  if card.color = CardColor.black then true
  else if card.color = currentColor then true
  else if card.type = topCard.type then
    (if card.type = CardType.number then card.value == topCard.value else true)
  else false

/-- `isValidMove` as called inside `playCard` on
`discardPile[discardPile.length - 1]`: when the discard pile is
empty the top card is `undefined`, and the JavaScript function
returns `true` without touching it for a black or color-matching
card but throws (`none`) on the `card.type === topCard.type` read
otherwise. -/
def isValidMoveTop (card : Card) (topCard : Option Card) (currentColor : CardColor) :
    Option Bool :=
  match topCard with
  | some t => some (isValidMove card t currentColor)
  | none =>
    if card.color = CardColor.black then some true
    else if card.color = currentColor then some true
    else none

/-- `calculateHandScore` from `src/App.tsx`. -/
def calculateHandScore (hand : List Card) : Nat :=
  hand.foldl (fun total card =>
    if card.type = CardType.wild ∨ card.type = CardType.wild4 then total + 50
    else if card.type = CardType.skip ∨ card.type = CardType.reverse ∨
        card.type = CardType.draw2 then total + 20
    else total + card.value.getD 0) 0

/-- `!p.isEliminated && !p.isSpectator`, the active-player test used
throughout `MockGameServer`. -/
def isActive (p : Player) : Bool :=
  !p.isEliminated && !p.isSpectator

/-- Whether seat `i` holds an active player
(`!players[i].isEliminated && !players[i].isSpectator`). -/
def activeAt (players : List Player) (i : Nat) : Bool :=
  match players[i]? with
  | some p => isActive p
  | none => false

/-- In-place update of `players[i]` (a no-op when `i` is out of
range, which never happens at the call sites). -/
def modifyPlayer (players : List Player) (i : Nat) (f : Player → Player) : List Player :=
  match players[i]? with
  | some p => players.set i (f p)
  | none => players

/-- The hand of `players[i]` in a state. -/
def handAt (s : GameState) (i : Nat) : List Card :=
  match s.players[i]? with
  | some p => p.hand
  | none => []

/-- `(nextIndex + this.state.direction + len) % len`, one step of the
seat walk. -/
def stepSeat (len : Nat) (dir : Int) (i : Nat) : Nat :=
  (((i : Int) + dir + (len : Int)) % (len : Int)).toNat

/-- The `while (count < offset)` loop of `getNextPlayerIndex`,
with explicit fuel: each recursive call is one loop iteration, and
`none` means the fuel ran out, i.e. the JavaScript loop would still
be running (it never exits when no seat holds an active player). -/
def nextLoop (players : List Player) (dir : Int) (offset : Nat) :
    Nat → Nat → Nat → Option Nat
  | 0, count, idx => if count < offset then none else some idx
  | fuel + 1, count, idx =>
    if count < offset then
      let len := players.length
      let idx1 := stepSeat len dir idx
      let count1 := if activeAt players idx1 then count + 1 else count
      if count1 > len * 2 then some idx1
      else nextLoop players dir offset fuel count1 idx1
    else some idx

/-- Fuel that is provably sufficient for `nextLoop` whenever the walk
can exit at all: the loop exits after at most
`min offset (2·len + 1)` count increments, and with any active seat
present each increment takes at most `len` iterations. -/
def nextFuel (players : List Player) : Nat :=
  players.length * (players.length * 2 + 1) + 1

/-- `getNextPlayerIndex` from `src/App.tsx`. -/
def getNextPlayerIndex (s : GameState) (offset : Nat) : Option Nat :=
  nextLoop s.players s.direction offset (nextFuel s.players) 0 s.currentPlayerIndex

/-- `advanceTurn` from `src/App.tsx` (`startTurnTimer` resets
`turnTimer` to 30). -/
def advanceTurn (s : GameState) (offset : Nat) : Option GameState :=
  (getNextPlayerIndex s offset).map (fun i =>
    { s with turnTimer := 30, currentPlayerIndex := i })

/-- The `for (let i = 0; i < count; i++)` loop of `drawCards`,
acting on `(players, deck, discardPile)`.  When the deck is empty
the discard pile minus its top card is reshuffled into the deck;
when both are empty the loop `break`s. -/
def drawCardsAux (rand : Nat → Nat) (playerIndex : Nat) :
    Nat → List Player × List Card × List Card → List Player × List Card × List Card
  | 0, st => st
  | n + 1, (players, deck, discard) =>
    let refill : Option (List Card × List Card) :=
      if deck.isEmpty then
        match discard.getLast? with
        | some top => some (shuffleDeck rand discard.dropLast, [top])
        | none => none
      else some (deck, discard)
    match refill with
    | none => (players, deck, discard)
    | some (deck1, discard1) =>
      match deck1.getLast? with
      | some card =>
        drawCardsAux rand playerIndex n
          (modifyPlayer players playerIndex (fun p => { p with hand := p.hand ++ [card] }),
           deck1.dropLast, discard1)
      | none => drawCardsAux rand playerIndex n (players, deck1, discard1)

/-- `drawCards` from `src/App.tsx`. -/
def drawCards (rand : Nat → Nat) (s : GameState) (playerIndex count : Nat) : GameState :=
  let res := drawCardsAux rand playerIndex count (s.players, s.deck, s.discardPile)
  { s with players := res.1, deck := res.2.1, discardPile := res.2.2 }

/-- `callUno` from `src/App.tsx`. -/
def callUno (s : GameState) (playerId : String) : GameState :=
  match s.players.findIdx? (fun p => p.id == playerId) with
  | none => s
  | some i =>
    match s.players[i]? with
    | none => s
    | some player =>
      if player.hand.length ≤ 2 then
        { s with
          players := modifyPlayer s.players i (fun p => { p with hasCalledUno := true }),
          log := s.log ++ [player.name ++ " called UNO!"] }
      else s

/-- `[...activePlayers].sort((a, b) => b.score - a.score)[0]`:
JavaScript `Array.prototype.sort` is stable, so the head of the
descending sort is the first element of maximal score; modelled as
a fold keeping the earlier element on ties. -/
def pickHighest : List Player → Option Player
  | [] => none
  | p :: ps => some (ps.foldl (fun best q => if q.score > best.score then q else best) p)

/-- The scoring `forEach` of `handleRoundWin`: every active player
other than the round winner gets `calculateHandScore` of their hand,
the winner gets 0. -/
def scoredPlayers (players : List Player) (roundWinner : Player) : List Player :=
  players.map (fun p =>
    if isActive p then
      if p.id = roundWinner.id then { p with score := 0 }
      else { p with score := calculateHandScore p.hand }
    else p)

/-- The elimination step of `handleRoundWin`: find the head of the
score-descending sort of the active players and, if its score is
positive, mark the first roster entry with that id eliminated
(logging the elimination). -/
def eliminateHighest (players1 : List Player) (log1 : List String) :
    List Player × List String :=
  match pickHighest (players1.filter isActive) with
  | some highestScorer =>
    if highestScorer.score > 0 then
      match players1.findIdx? (fun p => p.id == highestScorer.id) with
      | some j =>
        (modifyPlayer players1 j (fun p => { p with isEliminated := true }),
         log1 ++ [highestScorer.name ++ " eliminated! (" ++
           toString highestScorer.score ++ " pts)"])
      | none => (players1, log1)
    else (players1, log1)
  | none => (players1, log1)

/-- The post-elimination roster and log of a TOURNAMENT round win. -/
def roundWinPlayers (s : GameState) (roundWinner : Player) : List Player × List String :=
  eliminateHighest (scoredPlayers s.players roundWinner)
    (s.log ++ [roundWinner.name ++ " won the round!"])

/-- `handleRoundWin` from `src/App.tsx`; `roundWinner` is the
(already mutated, empty-handed) acting player object.  In QUICK mode
the round winner immediately wins the game; in TOURNAMENT mode the
hands are scored, the highest positive scorer is eliminated, and the
game ends if exactly one active player remains. -/
def handleRoundWin (s : GameState) (roundWinner : Player) : GameState :=
  if s.mode = GameMode.QUICK then
    { s with status := GameStatus.GAME_OVER, winner := some roundWinner,
             log := s.log ++ [roundWinner.name ++ " won the Quick Match!"] }
  else
    match (roundWinPlayers s roundWinner).1.filter isActive with
    | [q] =>
      { s with status := GameStatus.GAME_OVER,
               players := (roundWinPlayers s roundWinner).1,
               winner := some q,
               log := (roundWinPlayers s roundWinner).2 }
    | _ =>
      { s with status := GameStatus.ROUND_OVER,
               players := (roundWinPlayers s roundWinner).1,
               log := (roundWinPlayers s roundWinner).2 }

/-- The card-removal and discard step of a validated `playCard`:
`player.hand.splice(cardIndex, 1)` followed by
`discardPile.push(card)`. -/
def playRemove (s : GameState) (playerIndex : Nat) (player : Player) (cardIndex : Nat)
    (card : Card) : GameState :=
  { s with
    players := s.players.set playerIndex
      { player with hand := player.hand.eraseIdx cardIndex },
    discardPile := s.discardPile ++ [card] }

/-- The Uno-penalty step of `playCard`: a forced 1-card draw (with a
log line) when the hand just reached exactly one card without a
prior `callUno`. -/
def playPenalty (rand : Nat → Nat) (s1 : GameState) (playerIndex : Nat) (player : Player)
    (hand1 : List Card) : GameState :=
  if hand1.length = 1 ∧ player.hasCalledUno = false then
    drawCards rand
      { s1 with log := s1.log ++ [player.name ++ " forgot UNO! +1 Card Penalty."] }
      playerIndex 1
  else s1

/-- The `hasCalledUno` reset step of `playCard`
(`if (player.hand.length > 1) player.hasCalledUno = false`). -/
def playUnoReset (s2 : GameState) (playerIndex : Nat) : GameState :=
  if (handAt s2 playerIndex).length > 1 then
    { s2 with players :=
        modifyPlayer s2.players playerIndex (fun p => { p with hasCalledUno := false }) }
  else s2

/-- The `currentColor` update of `playCard`
(`currentColor = card.color`, overridden by `wildColor` for a black
card when one was supplied). -/
def playColor (card : Card) (wildColor : Option CardColor) : CardColor :=
  match wildColor with
  | some wc => if card.color = CardColor.black then wc else card.color
  | none => card.color

/-- The side-effect block of `playCard`: the next-seat offset and the
reverse/skip/draw2/wild4 effects.  `none` models the draw2/wild4 path
when the seat walk for the draw target never finishes. -/
def playAct (rand : Nat → Nat) (s4 : GameState) (card : Card) : Option (GameState × Nat) :=
  if card.type = CardType.reverse then
    let activeCount := (s4.players.filter isActive).length
    if activeCount = 2 then some (s4, 2)
    else some ({ s4 with direction := s4.direction * (-1) }, 1)
  else if card.type = CardType.skip then some (s4, 2)
  else if card.type = CardType.draw2 then
    (getNextPlayerIndex s4 1).map (fun nextP => (drawCards rand s4 nextP 2, 2))
  else if card.type = CardType.wild4 then
    (getNextPlayerIndex s4 1).map (fun nextP => (drawCards rand s4 nextP 4, 2))
  else some (s4, 1)

/-- The body of `playCard` once the actor, card and move have been
validated: remove and discard the card, apply the Uno penalty, reset
`hasCalledUno`, set `currentColor`, apply the side effects, then
either resolve the round (empty hand) or advance the turn. -/
def playCardGo (rand : Nat → Nat) (s : GameState) (playerIndex : Nat) (player : Player)
    (cardIndex : Nat) (card : Card) (wildColor : Option CardColor) : Option GameState :=
  match playAct rand
      { playUnoReset
          (playPenalty rand (playRemove s playerIndex player cardIndex card)
            playerIndex player (player.hand.eraseIdx cardIndex)) playerIndex with
        currentColor := playColor card wildColor } card with
  | none => none
  | some (s5, nextOffset) =>
    if (handAt s5 playerIndex).length = 0 then
      match s5.players[playerIndex]? with
      | some winnerNow => some (handleRoundWin s5 winnerNow)
      | none => none
    else
      advanceTurn s5 nextOffset

/-- `playCard` from `src/App.tsx`.  `some s` with the state unchanged
models the silent early `return`s; `none` models a run that never
returns (seat walk with no active seat) or throws (empty discard
pile read). -/
def playCard (rand : Nat → Nat) (s : GameState) (playerId : String) (cardId : Nat)
    (wildColor : Option CardColor) : Option GameState :=
  match s.players.findIdx? (fun p => p.id == playerId) with
  | none => some s
  | some playerIndex =>
    if playerIndex ≠ s.currentPlayerIndex then some s
    else
      match s.players[playerIndex]? with
      | none => some s
      | some player =>
        match player.hand.findIdx? (fun c => c.id == cardId) with
        | none => some s
        | some cardIndex =>
          match player.hand[cardIndex]? with
          | none => some s
          | some card =>
            match isValidMoveTop card s.discardPile.getLast? s.currentColor with
            | none => none
            | some false => some s
            | some true =>
              playCardGo rand s playerIndex player cardIndex card wildColor

/-- `drawCard` from `src/App.tsx`. -/
def drawCard (rand : Nat → Nat) (s : GameState) (playerId : String) : Option GameState :=
  match s.players.findIdx? (fun p => p.id == playerId) with
  | none => some s
  | some playerIndex =>
    if playerIndex ≠ s.currentPlayerIndex then some s
    else
      let s1 := drawCards rand s playerIndex 1
      let drawerName :=
        match s1.players[playerIndex]? with
        | some p => p.name
        | none => ""
      advanceTurn { s1 with log := s1.log ++ [drawerName ++ " drew a card"] } 1

/-- The `while (firstCard.color === 'black')` flip loop of
`startGame`/`nextRound`: pop the top (last) card; black cards are
`unshift`ed to the bottom and the pop repeats.  Fuel `deck.length`
suffices to examine every card once; `none` means every card is
black (the JavaScript loop never exits) or the deck is empty (the
`pop()!` is `undefined` and the color read throws). -/
def flipFirstAux : Nat → List Card → Option (Card × List Card)
  | 0, _ => none
  | n + 1, deck =>
    match deck.getLast? with
    | none => none
    | some c =>
      if c.color = CardColor.black then flipFirstAux n (c :: deck.dropLast)
      else some (c, deck.dropLast)

/-- Flip cards from the top of the deck until a non-black card
surfaces, as in `startGame`/`nextRound`. -/
def flipFirst (deck : List Card) : Option (Card × List Card) :=
  flipFirstAux deck.length deck

/-- The dealing `forEach` of `startGame`: every non-spectator is
dealt `deck.splice(0, 7)` (seven cards from the front of the deck,
consumed in roster order) and reset; spectators have their hand
cleared and are marked eliminated. -/
def dealStart : List Player → List Card → List Player × List Card
  | [], d => ([], d)
  | p :: ps, d =>
    if p.isSpectator then
      ({ p with hand := [], isEliminated := true } :: (dealStart ps d).1,
       (dealStart ps d).2)
    else
      ({ p with hand := d.take 7, isEliminated := false, score := 0,
                hasCalledUno := false } :: (dealStart ps (d.drop 7)).1,
       (dealStart ps (d.drop 7)).2)

/-- The textual name of a mode, for the `startGame` log line. -/
def modeName : GameMode → String
  | GameMode.QUICK => "QUICK"
  | GameMode.TOURNAMENT => "TOURNAMENT"

/-- The `while (players[currentPlayerIndex].isSpectator)` scan of
`startGame`, with fuel `players.length` (`none` = every player is a
spectator and the JavaScript loop never exits). -/
def firstNonSpectatorFrom (players : List Player) : Nat → Nat → Option Nat
  | 0, _ => none
  | n + 1, i =>
    match players[i]? with
    | none => none
    | some p =>
      if p.isSpectator then firstNonSpectatorFrom players n ((i + 1) % players.length)
      else some i

/-- `startGame` from `src/App.tsx`. -/
def startGame (rand : Nat → Nat) (s : GameState) : Option GameState :=
  if s.players.length < 2 then some s
  else
    let deck0 := generateDeck rand
    let dealt := dealStart s.players deck0
    match flipFirst dealt.2 with
    | none => none
    | some (firstCard, deck2) =>
      match firstNonSpectatorFrom dealt.1 dealt.1.length 0 with
      | none => none
      | some idx =>
        some { s with
          players := dealt.1, deck := deck2, discardPile := [firstCard],
          currentColor := firstCard.color, status := GameStatus.PLAYING,
          currentPlayerIndex := idx,
          log := s.log ++ ["Game Started (" ++ modeName s.mode ++ " Mode)"],
          turnTimer := 30 }

/-- The dealing `forEach` of `nextRound`: every active
(non-eliminated, non-spectator) player is dealt `deck.splice(0, 7)`
in roster order and has `hasCalledUno`/`score` reset; other players
are untouched. -/
def dealToActives : List Player → List Card → List Player × List Card
  | [], d => ([], d)
  | p :: ps, d =>
    if isActive p then
      ({ p with hand := d.take 7, hasCalledUno := false, score := 0 } ::
        (dealToActives ps (d.drop 7)).1,
       (dealToActives ps (d.drop 7)).2)
    else
      (p :: (dealToActives ps d).1, (dealToActives ps d).2)

/-- `nextRound` from `src/App.tsx`.  Note the only guard in the
source is `if (this.state.status === 'GAME_OVER') return;`. -/
def nextRound (rand : Nat → Nat) (s : GameState) : Option GameState :=
  if s.status = GameStatus.GAME_OVER then some s
  else
    let s1 := { s with deck := generateDeck rand, discardPile := [] }
    match s1.players.filter isActive with
    | [] =>
      some { s1 with status := GameStatus.GAME_OVER }
    | [a] =>
      some { s1 with status := GameStatus.GAME_OVER, winner := some a }
    | a :: _ :: _ =>
      let dealt := dealToActives s1.players s1.deck
      match flipFirst dealt.2 with
      | none => none
      | some (firstCard, deck2) =>
        -- `findIndex` cannot fail here: `a.id` is the id of a member
        -- of the same roster, so the `getD 0` default is never used.
        let idx := (dealt.1.findIdx? (fun p => p.id == a.id)).getD 0
        some { s1 with
          players := dealt.1, deck := deck2, discardPile := [firstCard],
          currentColor := firstCard.color, status := GameStatus.PLAYING,
          currentPlayerIndex := idx,
          log := s1.log ++ ["Next Round Started!"], turnTimer := 30 }

/-- The total number of cards held in the hands of a roster. -/
def sumHands (ps : List Player) : Nat :=
  (ps.map (fun p => p.hand.length)).sum

/-- The number of cards in play:
`|deck| + |discardPile| + Σ |hand|` over every roster member. -/
def totalCards (s : GameState) : Nat :=
  s.deck.length + s.discardPile.length + sumHands s.players

/-- The cards in play counted over active players only. -/
def totalCardsActive (s : GameState) : Nat :=
  s.deck.length + s.discardPile.length + sumHands (s.players.filter isActive)

/-- The seat reached after `t` steps of the walk. -/
def walkSeat (len : Nat) (dir : Int) (start : Nat) : Nat → Nat
  | 0 => start
  | t + 1 => stepSeat len dir (walkSeat len dir start t)

/-- The seats visited by steps `1, 2, …, n` of the walk. -/
def walkSeats (players : List Player) (dir : Int) (start n : Nat) : List Nat :=
  (List.range n).map (fun t => walkSeat players.length dir start (t + 1))

/-- The seats visited by the walk, keeping only those holding an
active (non-eliminated, non-spectator) player, in visiting order. -/
def activeWalk (players : List Player) (dir : Int) (start n : Nat) : List Nat :=
  (walkSeats players dir start n).filter (activeAt players)

/-- The specification of `getNextPlayerIndex`: walk seats from the
current seat in `direction` order with wraparound, count only seats
occupied by an active player, and stop at the seat where the
`offset`-th such player is reached. -/
def specNextSeat (s : GameState) (offset : Nat) : Option Nat :=
  (activeWalk s.players s.direction s.currentPlayerIndex (nextFuel s.players))[offset - 1]?

/-- The legality predicate exactly as the specification words it:
a black card is always legal; otherwise legal iff the card's color
equals the active color, or the card's kind equals the top card's
kind and (for number cards) the values agree. -/
def isLegalMoveSpec (card topCard : Card) (activeColor : CardColor) : Prop :=
  card.color = CardColor.black ∨ card.color = activeColor ∨
    (card.type = topCard.type ∧ (card.type = CardType.number → card.value = topCard.value))

/-- Roster-member constructor for the concrete scenarios below
(name is the id, no avatar, not host, not a bot, score 0). -/
def mkPlayer (pid : String) (hand : List Card) (elim spect uno : Bool) : Player :=
  { id := pid, name := pid, avatar := "", hand := hand, isHost := false, score := 0,
    isEliminated := elim, hasCalledUno := uno, isBot := false, isSpectator := spect }

/-- A chassis mid-round state (PLAYING, TOURNAMENT, clockwise,
current color red, seat 0 to move) for the concrete scenarios. -/
def baseState : GameState :=
  { roomId := "R", players := [], deck := [], discardPile := [],
    currentPlayerIndex := 0, direction := 1, status := GameStatus.PLAYING,
    winner := none, currentColor := CardColor.red, turnTimer := 30, log := [],
    mode := GameMode.TOURNAMENT }

/-- The specification's turn-advancement example: players `[A, B, C]`
with `B` eliminated, direction `+1`, `A` (seat 0) holding the turn. -/
def exSkipElim : GameState :=
  { baseState with players :=
      [mkPlayer "A" [] false false false,
       mkPlayer "B" [] true false false,
       mkPlayer "C" [] false false false] }

/-- A state with no active player (everyone eliminated), on which the
seat walk can never finish. -/
def exNoActive : GameState :=
  { baseState with players :=
      [mkPlayer "A" [] true false false, mkPlayer "B" [] true false false] }

/-- A 2-player mid-round state where it is `A`'s turn (seat 0); both
hold one card, the full 108-card deck is split between hands, the
discard pile and the deck. -/
def exTwoPlayers : GameState :=
  { baseState with
    players :=
      [mkPlayer "A" (unshuffledDeck.take 1) false false false,
       mkPlayer "B" ((unshuffledDeck.drop 1).take 1) false false false],
    deck := unshuffledDeck.drop 3,
    discardPile := (unshuffledDeck.drop 2).take 1 }

/-- A 3-player PLAYING state holding the canonical 108 cards split
between hands (`A`: 1 card, `B`: 2, `C`: 3), the discard pile (1)
and the deck (101); `A` is to move and can legally play their last
card (same color as the top discard). -/
def exPlayWin : GameState :=
  { baseState with
    players :=
      [mkPlayer "A" (unshuffledDeck.take 1) false false true,
       mkPlayer "B" ((unshuffledDeck.drop 1).take 2) false false false,
       mkPlayer "C" ((unshuffledDeck.drop 3).take 3) false false false],
    deck := unshuffledDeck.drop 7,
    discardPile := (unshuffledDeck.drop 6).take 1 }

/-- The state after `A` wins the round from `exPlayWin`: TOURNAMENT
resolution scores `B` (2 points) and `C` (7 points), eliminates `C`
— whose 3-card hand is not cleared — and goes to ROUND_OVER. -/
def exRoundOver : GameState :=
  (playCard (fun _ => 0) exPlayWin "A" 0 none).getD exPlayWin

/-- The state after `nextRound` from `exRoundOver`: a fresh 108-card
deck is dealt to the two remaining active players while eliminated
`C` still holds 3 stale cards. -/
def exAfterNextRound : GameState :=
  (nextRound (fun _ => 0) exRoundOver).getD exRoundOver

/-- A red reverse card for the reverse-play scenarios. -/
def revCard : Card :=
  { id := 100, color := CardColor.red, type := CardType.reverse, value := none }

/-- A red 5 with a chosen id for the reverse-play scenarios. -/
def numCard (idv : Nat) : Card :=
  { id := idv, color := CardColor.red, type := CardType.number, value := some 5 }

/-- Two active players; `A` (to move) holds a red reverse and one
more card, so playing the reverse triggers the 2-player shortcut. -/
def exRev2 : GameState :=
  { baseState with
    players := [mkPlayer "A" [revCard, numCard 101] false false false,
                mkPlayer "B" [numCard 102] false false false],
    deck := [numCard 103, numCard 104],
    discardPile := [numCard 105] }

/-- The state after `A` plays the reverse in `exRev2`. -/
def exRev2After : GameState :=
  (playCard (fun _ => 0) exRev2 "A" 100 none).getD exRev2

/-- Three active players; `A` (to move) holds a red reverse, so
playing it flips the direction and passes the turn to `C`. -/
def exRev3 : GameState :=
  { baseState with
    players := [mkPlayer "A" [revCard, numCard 101] false false false,
                mkPlayer "B" [numCard 102] false false false,
                mkPlayer "C" [numCard 106] false false false],
    deck := [numCard 103, numCard 104],
    discardPile := [numCard 105] }

/-- The state after `A` plays the reverse in `exRev3`. -/
def exRev3After : GameState :=
  (playCard (fun _ => 0) exRev3 "A" 100 none).getD exRev3

/-- `exPlayWin` switched to QUICK mode: `A` playing their last card
ends the whole game at once. -/
def exQuickWin : GameState :=
  { exPlayWin with mode := GameMode.QUICK }

/-- The state after `A` wins in `exQuickWin`. -/
def exQuickAfter : GameState :=
  (playCard (fun _ => 0) exQuickWin "A" 0 none).getD exQuickWin

/-- A finished game: `baseState` with status `GAME_OVER`. -/
def exGameOver : GameState :=
  { baseState with status := GameStatus.GAME_OVER }

/-- The state produced by calling `nextRound` on `exPlayWin`, a state
that is still mid-round (status `PLAYING`): the call goes through and
re-deals rather than rejecting the out-of-phase request. -/
def exNextDuring : GameState :=
  (nextRound (fun _ => 0) exPlayWin).getD exPlayWin

/-- A 2-player LOBBY state about to start a game. -/
def exLobby : GameState :=
  { baseState with
    status := GameStatus.LOBBY,
    players := [mkPlayer "A" [] false false false, mkPlayer "B" [] false false false] }

/-- The state after `startGame` from `exLobby`. -/
def exStarted : GameState :=
  (startGame (fun _ => 0) exLobby).getD exLobby

/-- The state after `A` draws a card in `exTwoPlayers`. -/
def exDrawn : GameState :=
  (drawCard (fun _ => 0) exTwoPlayers "A").getD exTwoPlayers

/-- A 2-player PLAYING state where the current player `A` holds
exactly two cards (so may legally call Uno) and the deck is
non-empty. -/
def exUno : GameState :=
  { baseState with
    players :=
      [mkPlayer "A" (unshuffledDeck.take 2) false false false,
       mkPlayer "B" ((unshuffledDeck.drop 2).take 2) false false false],
    deck := unshuffledDeck.drop 5,
    discardPile := (unshuffledDeck.drop 4).take 1 }

/-- `exUno` after `A` calls Uno (two cards in hand, flag set). -/
def exUnoCalled : GameState :=
  callUno exUno "A"

/-- `exUnoCalled` after `A` draws: three cards in hand while
`hasCalledUno` is still `true`. -/
def exUnoDrawn : GameState :=
  (drawCard (fun _ => 0) exUnoCalled "A").getD exUnoCalled

/-- A 2-player PLAYING state where the current player `A` holds two
red cards, has not called Uno, a red card tops the discard pile and
the deck is non-empty: playing a card triggers the Uno penalty. -/
def exPenalty : GameState :=
  { baseState with
    players :=
      [mkPlayer "A" (unshuffledDeck.take 2) false false false,
       mkPlayer "B" ((unshuffledDeck.drop 3).take 2) false false false],
    deck := unshuffledDeck.drop 5,
    discardPile := (unshuffledDeck.drop 2).take 1 }

/-- `exPenalty` after `A` plays card 0: hand reaches 1 card without a
prior Uno call, so the forced penalty draw brings it back to 2. -/
def exPenaltyDone : GameState :=
  (playCard (fun _ => 0) exPenalty "A" 0 none).getD exPenalty

theorem listSwap_length {α : Type} (l : List α) (i j : Nat) :
    (listSwap l i j).length = l.length := by
  unfold listSwap
  split <;> simp

theorem shuffleAux_length (rand : Nat → Nat) :
    ∀ (n : Nat) (l : List Card), (shuffleAux rand n l).length = l.length := by
  intro n
  induction n with
  | zero => intro l; rfl
  | succ m ih => intro l; rw [shuffleAux, ih, listSwap_length]

theorem shuffleDeck_length (rand : Nat → Nat) (l : List Card) :
    (shuffleDeck rand l).length = l.length :=
  shuffleAux_length rand (l.length - 1) l

theorem unshuffledDeck_length : unshuffledDeck.length = 108 := by decide

theorem generateDeck_length (rand : Nat → Nat) : (generateDeck rand).length = 108 := by
  rw [generateDeck, shuffleDeck_length, unshuffledDeck_length]

theorem flipFirstAux_spec :
    ∀ (n : Nat) (deck : List Card) (c : Card) (rest : List Card),
      flipFirstAux n deck = some (c, rest) →
      rest.length + 1 = deck.length ∧ c.color ≠ CardColor.black := by
  intro n
  induction n with
  | zero => intro deck c rest h; simp [flipFirstAux] at h
  | succ m ih =>
    intro deck c rest h
    rw [flipFirstAux] at h
    rcases hlast : deck.getLast? with _ | c0
    · rw [hlast] at h; simp at h
    · rw [hlast] at h
      have hne : deck ≠ [] := by
        intro he; subst he; simp at hlast
      have hlen : deck.dropLast.length = deck.length - 1 := by
        simp [List.length_dropLast]
      have hpos : 0 < deck.length := List.length_pos.mpr hne
      by_cases hb : c0.color = CardColor.black
      · simp only [hb, if_true] at h
        have := ih (c0 :: deck.dropLast) c rest h
        simp [hlen] at this
        exact ⟨by omega, this.2⟩
      · simp [hb] at h
        rcases h with ⟨h1, h2⟩
        subst h1; subst h2
        exact ⟨by omega, hb⟩

theorem flipFirst_spec (deck : List Card) (c : Card) (rest : List Card)
    (h : flipFirst deck = some (c, rest)) :
    rest.length + 1 = deck.length ∧ c.color ≠ CardColor.black :=
  flipFirstAux_spec deck.length deck c rest h

theorem modifyPlayer_length (ps : List Player) (i : Nat) (f : Player → Player) :
    (modifyPlayer ps i f).length = ps.length := by
  unfold modifyPlayer
  split <;> simp

theorem sumHands_nil : sumHands [] = 0 := rfl

theorem sumHands_cons (p : Player) (ps : List Player) :
    sumHands (p :: ps) = p.hand.length + sumHands ps := by
  simp [sumHands]

theorem sumHands_set :
    ∀ (ps : List Player) (i : Nat) (p q : Player),
      ps[i]? = some p →
      sumHands (ps.set i q) + p.hand.length = sumHands ps + q.hand.length := by
  intro ps
  induction ps with
  | nil => intro i p q h; simp at h
  | cons a l ih =>
    intro i p q h
    cases i with
    | zero =>
      simp at h
      subst h
      simp [sumHands_cons]
      omega
    | succ n =>
      simp at h
      have := ih n p q h
      simp [sumHands_cons]
      omega

theorem getElem?_bound {α : Type} {l : List α} {i : Nat} {a : α}
    (h : l[i]? = some a) : i < l.length :=
  (List.getElem?_eq_some.mp h).1

theorem set_self_eq {α : Type} {l : List α} {i : Nat} {a : α}
    (h : l[i]? = some a) : l.set i a = l := by
  apply List.ext_getElem?
  intro j
  by_cases hj : i = j
  · subst hj; rw [List.getElem?_set_self (getElem?_bound h), h]
  · rw [List.getElem?_set_ne hj]

theorem modifyPlayer_get_self (ps : List Player) (i : Nat) (f : Player → Player)
    (p : Player) (h : ps[i]? = some p) :
    (modifyPlayer ps i f)[i]? = some (f p) := by
  unfold modifyPlayer
  rw [h]
  show (ps.set i (f p))[i]? = some (f p)
  exact List.getElem?_set_self (getElem?_bound h)

theorem modifyPlayer_get_ne (ps : List Player) (i j : Nat) (f : Player → Player)
    (h : i ≠ j) : (modifyPlayer ps i f)[j]? = ps[j]? := by
  unfold modifyPlayer
  split
  · exact List.getElem?_set_ne h
  · rfl

theorem modifyPlayer_id (ps : List Player) (i : Nat) :
    modifyPlayer ps i (fun p => p) = ps := by
  unfold modifyPlayer
  split
  · next p h => exact set_self_eq h
  · rfl

theorem modifyPlayer_comp (ps : List Player) (i : Nat) (f g : Player → Player) :
    modifyPlayer (modifyPlayer ps i f) i g = modifyPlayer ps i (fun p => g (f p)) := by
  rcases h : ps[i]? with _ | p
  · simp [modifyPlayer, h]
  · have h2 : modifyPlayer ps i f = ps.set i (f p) := by
      unfold modifyPlayer
      rw [h]
    have h3 : modifyPlayer ps i (fun q => g (f q)) = ps.set i (g (f p)) := by
      unfold modifyPlayer
      rw [h]
    rw [h2, h3]
    unfold modifyPlayer
    rw [List.getElem?_set_self (getElem?_bound h)]
    show ((ps.set i (f p)).set i (g (f p))) = ps.set i (g (f p))
    exact List.set_set (f p) (g (f p)) ps i

theorem sumHands_modify_append (ps : List Player) (i : Nat) (c : Card) (p : Player)
    (h : ps[i]? = some p) :
    sumHands (modifyPlayer ps i (fun q => { q with hand := q.hand ++ [c] })) =
      sumHands ps + 1 := by
  unfold modifyPlayer
  rw [h]
  show sumHands (ps.set i { p with hand := p.hand ++ [c] }) = sumHands ps + 1
  have h2 := sumHands_set ps i p { p with hand := p.hand ++ [c] } h
  simp only [List.length_append, List.length_cons, List.length_nil] at h2
  omega

/-- `drawCards` only ever appends cards to the hand of
`players[playerIndex]`; every other roster entry, and every field of
that player other than its hand, is untouched. -/
theorem drawCardsAux_players (rand : Nat → Nat) (pi : Nat) :
    ∀ (n : Nat) (ps : List Player) (d dc : List Card),
      ∃ extra : List Card,
        (drawCardsAux rand pi n (ps, d, dc)).1 =
          modifyPlayer ps pi (fun p => { p with hand := p.hand ++ extra }) := by
  intro n
  induction n with
  | zero =>
    intro ps d dc
    refine ⟨[], ?_⟩
    have he : (fun p => { p with hand := p.hand ++ ([] : List Card) }) =
        (fun p : Player => p) := by
      funext p
      simp
    rw [he, modifyPlayer_id]
    rfl
  | succ n ih =>
    intro ps d dc
    rw [drawCardsAux]
    split
    · refine ⟨[], ?_⟩
      have he : (fun p => { p with hand := p.hand ++ ([] : List Card) }) =
          (fun p : Player => p) := by
        funext p
        simp
      rw [he, modifyPlayer_id]
    · next deck1 discard1 heq =>
      split
      · next card hcard =>
        rcases ih (modifyPlayer ps pi (fun p => { p with hand := p.hand ++ [card] }))
          deck1.dropLast discard1 with ⟨extra, hex⟩
        refine ⟨card :: extra, ?_⟩
        rw [hex, modifyPlayer_comp]
        have he : (fun p : Player =>
            ({ ({ p with hand := p.hand ++ [card] } : Player) with
                hand := ({ p with hand := p.hand ++ [card] } : Player).hand ++ extra })) =
            (fun p : Player => { p with hand := p.hand ++ (card :: extra) }) := by
          funext p
          simp
        exact congrArg (modifyPlayer ps pi) (funext (fun p => by simp))
      · next hcard =>
        rcases ih ps deck1 discard1 with ⟨extra, hex⟩
        exact ⟨extra, hex⟩

/-- Card conservation for the `drawCards` loop: hands gain exactly
what deck and discard pile lose. -/
theorem drawCardsAux_count (rand : Nat → Nat) (pi : Nat) :
    ∀ (n : Nat) (ps : List Player) (d dc : List Card), pi < ps.length →
      sumHands (drawCardsAux rand pi n (ps, d, dc)).1 +
        (drawCardsAux rand pi n (ps, d, dc)).2.1.length +
        (drawCardsAux rand pi n (ps, d, dc)).2.2.length =
      sumHands ps + d.length + dc.length := by
  intro n
  induction n with
  | zero => intro ps d dc _; rfl
  | succ n ih =>
    intro ps d dc hpi
    rw [drawCardsAux]
    split
    · rfl
    · next deck1 discard1 heq =>
      have hcount : deck1.length + discard1.length = d.length + dc.length := by
        by_cases hd : d.isEmpty
        · rw [if_pos hd] at heq
          rcases hlast : dc.getLast? with _ | top
          · rw [hlast] at heq; simp at heq
          · rw [hlast] at heq
            simp at heq
            have hdc : dc ≠ [] := by intro he; subst he; simp at hlast
            have : 0 < dc.length := List.length_pos.mpr hdc
            rcases heq with ⟨h1, h2⟩
            subst h1; subst h2
            rw [shuffleDeck_length]
            simp [List.length_dropLast]
            have hde : d.length = 0 := by
              rw [List.isEmpty_iff] at hd
              simp [hd]
            omega
        · rw [if_neg hd] at heq
          simp at heq
          rcases heq with ⟨h1, h2⟩
          subst h1; subst h2
          rfl
      split
      · next card hcard =>
        have hplen : pi < (modifyPlayer ps pi
            (fun p => { p with hand := p.hand ++ [card] })).length := by
          rw [modifyPlayer_length]; exact hpi
        have hrec := ih (modifyPlayer ps pi (fun p => { p with hand := p.hand ++ [card] }))
          deck1.dropLast discard1 hplen
        have hp : ps[pi]? = some ps[pi] := List.getElem?_eq_getElem hpi
        have hsum := sumHands_modify_append ps pi card ps[pi] hp
        have hd1 : deck1 ≠ [] := by intro he; subst he; simp at hcard
        have : 0 < deck1.length := List.length_pos.mpr hd1
        rw [hrec, hsum]
        simp [List.length_dropLast]
        omega
      · next hcard =>
        have hd1 : deck1.length = 0 := by
          rcases deck1 with _ | ⟨x, xs⟩
          · rfl
          · simp at hcard
        have hrec := ih ps deck1 discard1 hpi
        rw [hrec]
        omega

theorem stepSeat_lt (len : Nat) (dir : Int) (i : Nat) (hlen : 0 < len) :
    stepSeat len dir i < len := by
  unfold stepSeat
  have h1 : (0 : Int) < (len : Int) := by exact_mod_cast hlen
  have h2 := Int.emod_lt_of_pos ((i : Int) + dir + (len : Int)) h1
  have h3 : (0 : Int) ≤ ((i : Int) + dir + (len : Int)) % (len : Int) :=
    Int.emod_nonneg _ (by omega)
  exact (Int.toNat_lt h3).mpr h2

theorem walkSeat_add (len : Nat) (dir : Int) (start : Nat) :
    ∀ (b a : Nat), walkSeat len dir start (a + b) = walkSeat len dir (walkSeat len dir start a) b := by
  intro b
  induction b with
  | zero => intro a; rfl
  | succ m ih =>
    intro a
    have : a + (m + 1) = (a + m) + 1 := by omega
    rw [this, walkSeat, walkSeat, ih]

theorem stepSeat_pos_eq (len i : Nat) :
    stepSeat len 1 i = (i + 1) % len := by
  unfold stepSeat
  have h1 : ((i : Int) + 1 + (len : Int)) = (((i + 1 + len : Nat) : Int)) := by push_cast; ring
  rw [h1]
  have h2 : (((i + 1 + len : Nat) : Int) % ((len : Nat) : Int)).toNat = (i + 1 + len) % len := rfl
  rw [h2]
  exact Nat.add_mod_right (i + 1) len

theorem stepSeat_neg_eq (len i : Nat) (hlen : 0 < len) :
    stepSeat len (-1) i = (i + (len - 1)) % len := by
  unfold stepSeat
  have h1 : ((i : Int) + (-1) + (len : Int)) = (((i + (len - 1) : Nat) : Int)) := by
    omega
  rw [h1]
  rfl

theorem walkSeat_pos_eq (len start : Nat) :
    ∀ t, 1 ≤ t → walkSeat len 1 start t = (start + t) % len := by
  intro t
  induction t with
  | zero => omega
  | succ m ih =>
    intro _
    rcases Nat.eq_zero_or_pos m with hm | hm
    · subst hm
      rw [walkSeat, walkSeat, stepSeat_pos_eq len start]
    · rw [walkSeat, ih hm, stepSeat_pos_eq len _, Nat.mod_add_mod]
      congr 1

theorem walkSeat_neg_eq (len start : Nat) (hlen : 0 < len) :
    ∀ t, 1 ≤ t → walkSeat len (-1) start t = (start + t * (len - 1)) % len := by
  intro t
  induction t with
  | zero => omega
  | succ m ih =>
    intro _
    rcases Nat.eq_zero_or_pos m with hm | hm
    · subst hm
      rw [walkSeat, walkSeat, stepSeat_neg_eq len start hlen]
      simp
    · rw [walkSeat, ih hm, stepSeat_neg_eq len _ hlen, Nat.mod_add_mod]
      have : start + m * (len - 1) + (len - 1) = start + (m + 1) * (len - 1) := by ring
      rw [this]

/-- Solvability of the shifted congruence `b + t ≡ a (mod len)`
with `t` in a single lap `1 ≤ t ≤ len`. -/
theorem solveShift (len a b : Nat) (hlen : 0 < len) :
    ∃ t, 1 ≤ t ∧ t ≤ len ∧ (b + t) % len = a % len := by
  have hb : b % len < len := Nat.mod_lt _ hlen
  refine ⟨(a + len - b % len - 1) % len + 1, by omega, ?_, ?_⟩
  · have := Nat.mod_lt (a + len - b % len - 1) hlen
    omega
  · show b + ((a + len - b % len - 1) % len + 1) ≡ a [MOD len]
    have e1 : b + ((a + len - b % len - 1) % len + 1) ≡
        b % len + ((a + len - b % len - 1) % len + 1) [MOD len] :=
      (Nat.mod_modEq b len).symm.add_right _
    have e2 : b % len + ((a + len - b % len - 1) % len + 1) ≡
        b % len + ((a + len - b % len - 1) + 1) [MOD len] :=
      (((Nat.mod_modEq (a + len - b % len - 1) len).add_right 1).add_left (b % len))
    have e3 : b % len + (a + len - b % len - 1 + 1) = a + len := by omega
    have e4 : a + len ≡ a [MOD len] := by
      show (a + len) % len = a % len
      exact Nat.add_mod_right a len
    exact e1.trans (e2.trans (by rw [e3]; exact e4))

/-- Walking with direction `±1` from any start reaches any given
seat `j < len` within one lap. -/
theorem existsWalkHit (len : Nat) (dir : Int) (start j : Nat) (hlen : 0 < len)
    (hdir : dir = 1 ∨ dir = -1) (hj : j < len) :
    ∃ t, 1 ≤ t ∧ t ≤ len ∧ walkSeat len dir start t = j := by
  rcases hdir with hdir | hdir
  · subst hdir
    rcases solveShift len j start hlen with ⟨t, ht1, ht2, ht3⟩
    refine ⟨t, ht1, ht2, ?_⟩
    rw [walkSeat_pos_eq len start t ht1, ht3, Nat.mod_eq_of_lt hj]
  · subst hdir
    rcases solveShift len start j hlen with ⟨t, ht1, ht2, ht3⟩
    refine ⟨t, ht1, ht2, ?_⟩
    rw [walkSeat_neg_eq len start hlen t ht1]
    have hmul : t + t * (len - 1) = t * len := by
      rcases len with _ | m
      · omega
      · simp [Nat.succ_sub_one]
        ring
    calc (start + t * (len - 1)) % len
        = (start % len + t * (len - 1)) % len := by rw [Nat.mod_add_mod]
      _ = ((j + t) % len + t * (len - 1)) % len := by rw [ht3]
      _ = (j + t + t * (len - 1)) % len := by rw [Nat.mod_add_mod]
      _ = (j + (t + t * (len - 1))) % len := by rw [Nat.add_assoc]
      _ = (j + t * len) % len := by rw [hmul]
      _ = j % len := Nat.add_mul_mod_self_right j t len
      _ = j := Nat.mod_eq_of_lt hj

theorem activeAt_lt (players : List Player) (j : Nat) (h : activeAt players j = true) :
    j < players.length := by
  unfold activeAt at h
  rcases hp : players[j]? with _ | p
  · rw [hp] at h; simp at h
  · exact getElem?_bound hp

theorem walkSeats_append (players : List Player) (dir : Int) (start a b : Nat) :
    walkSeats players dir start (a + b) =
      walkSeats players dir start a ++
        walkSeats players dir (walkSeat players.length dir start a) b := by
  unfold walkSeats
  rw [List.range_add, List.map_append, List.map_map]
  congr 1
  apply List.map_eq_map_iff.mpr
  intro t _
  show walkSeat players.length dir start (a + t + 1) =
    walkSeat players.length dir (walkSeat players.length dir start a) (t + 1)
  rw [Nat.add_assoc]
  exact walkSeat_add players.length dir start (t + 1) a

theorem walkSeats_one (players : List Player) (dir : Int) (start : Nat) :
    walkSeats players dir start 1 = [stepSeat players.length dir start] := rfl

theorem walkSeats_succ (players : List Player) (dir : Int) (start n : Nat) :
    walkSeats players dir start (n + 1) =
      stepSeat players.length dir start ::
        walkSeats players dir (stepSeat players.length dir start) n := by
  have h := walkSeats_append players dir start 1 n
  rw [Nat.add_comm 1 n] at h
  rw [h, walkSeats_one]
  rfl

theorem mem_walkSeats (players : List Player) (dir : Int) (start n x : Nat) :
    x ∈ walkSeats players dir start n ↔
      ∃ t, 1 ≤ t ∧ t ≤ n ∧ walkSeat players.length dir start t = x := by
  unfold walkSeats
  simp only [List.mem_map, List.mem_range]
  constructor
  · rintro ⟨t, ht, he⟩
    exact ⟨t + 1, by omega, by omega, he⟩
  · rintro ⟨t, h1, h2, he⟩
    exact ⟨t - 1, by omega, by rw [show t - 1 + 1 = t by omega]; exact he⟩

theorem activeWalk_append (players : List Player) (dir : Int) (start a b : Nat) :
    activeWalk players dir start (a + b) =
      activeWalk players dir start a ++
        activeWalk players dir (walkSeat players.length dir start a) b := by
  unfold activeWalk
  rw [walkSeats_append, List.filter_append]

theorem activeWalk_zero (players : List Player) (dir : Int) (start : Nat) :
    activeWalk players dir start 0 = [] := rfl

theorem activeWalk_succ (players : List Player) (dir : Int) (start n : Nat) :
    activeWalk players dir start (n + 1) =
      (if activeAt players (stepSeat players.length dir start) then
        [stepSeat players.length dir start] else []) ++
        activeWalk players dir (stepSeat players.length dir start) n := by
  unfold activeWalk
  rw [walkSeats_succ, List.filter_cons]
  split <;> simp

/-- One full lap of the walk passes at least one active seat. -/
theorem activeWalk_lap (players : List Player) (dir : Int)
    (hdir : dir = 1 ∨ dir = -1) (j : Nat) (hj : activeAt players j = true) (start : Nat) :
    1 ≤ (activeWalk players dir start players.length).length := by
  have hjlen : j < players.length := activeAt_lt players j hj
  have hlen : 0 < players.length := by omega
  rcases existsWalkHit players.length dir start j hlen hdir hjlen with ⟨t, ht1, ht2, ht3⟩
  have hmem : j ∈ walkSeats players dir start players.length :=
    (mem_walkSeats players dir start players.length j).mpr ⟨t, ht1, ht2, ht3⟩
  have hmf : j ∈ activeWalk players dir start players.length :=
    List.mem_filter.mpr ⟨hmem, hj⟩
  exact List.length_pos.mpr (List.ne_nil_of_mem hmf)

/-- `k` laps of the walk pass at least `k` active seats. -/
theorem activeWalk_laps (players : List Player) (dir : Int)
    (hdir : dir = 1 ∨ dir = -1) (j : Nat) (hj : activeAt players j = true) :
    ∀ (k start : Nat), k ≤ (activeWalk players dir start (players.length * k)).length := by
  intro k
  induction k with
  | zero => intro start; omega
  | succ m ih =>
    intro start
    have hsplit : players.length * (m + 1) = players.length + players.length * m := by ring
    rw [hsplit, activeWalk_append, List.length_append]
    have h1 := activeWalk_lap players dir hdir j hj start
    have h2 := ih (walkSeat players.length dir start players.length)
    omega

theorem activeWalk_length_mono (players : List Player) (dir : Int) (start a n : Nat)
    (h : a ≤ n) :
    (activeWalk players dir start a).length ≤ (activeWalk players dir start n).length := by
  have : n = a + (n - a) := by omega
  rw [this, activeWalk_append, List.length_append]
  omega

theorem activeWalk_ge (players : List Player) (dir : Int)
    (hdir : dir = 1 ∨ dir = -1) (j : Nat) (hj : activeAt players j = true)
    (k n start : Nat) (hn : players.length * k ≤ n) :
    k ≤ (activeWalk players dir start n).length :=
  le_trans (activeWalk_laps players dir hdir j hj k start)
    (activeWalk_length_mono players dir start (players.length * k) n hn)

theorem nextLoop_done (players : List Player) (dir : Int) (offset : Nat)
    (n count idx : Nat) (h : ¬(count < offset)) :
    nextLoop players dir offset n count idx = some idx := by
  cases n <;> simp [nextLoop, h]

/-- The loop of `getNextPlayerIndex` computes the
`min offset (2·len + 1) - count`-th remaining active seat of the
walk (the `min` accounts for the `count > len * 2` safety `break`). -/
theorem nextLoop_spec (players : List Player) (dir : Int) (offset : Nat) :
    ∀ (n count idx : Nat), count < offset → count ≤ players.length * 2 →
      nextLoop players dir offset n count idx =
        (activeWalk players dir idx n)[min offset (players.length * 2 + 1) - count - 1]? := by
  intro n
  induction n with
  | zero =>
    intro count idx h1 h2
    simp [nextLoop, h1, activeWalk_zero]
  | succ n ih =>
    intro count idx h1 h2
    rw [nextLoop, activeWalk_succ]
    simp only [if_pos h1]
    by_cases hact : activeAt players (stepSeat players.length dir idx) = true
    · rw [if_pos hact, if_pos hact]
      by_cases hbr : count + 1 > players.length * 2
      · rw [if_pos hbr]
        have hcnt : count = players.length * 2 := by omega
        have hoff : players.length * 2 + 1 ≤ offset := by omega
        have hmin : min offset (players.length * 2 + 1) = players.length * 2 + 1 := by omega
        rw [hmin]
        have hidx : players.length * 2 + 1 - count - 1 = 0 := by omega
        rw [hidx]
        simp
      · rw [if_neg hbr]
        by_cases hlt : count + 1 < offset
        · have hrec := ih (count + 1) (stepSeat players.length dir idx) hlt (by omega)
          rw [hrec]
          have hmin2 : count + 2 ≤ min offset (players.length * 2 + 1) := by omega
          have hidx : min offset (players.length * 2 + 1) - count - 1 =
              (min offset (players.length * 2 + 1) - count - 2) + 1 := by omega
          rw [hidx]
          simp only [List.cons_append, List.nil_append, List.getElem?_cons_succ]
          rw [show min offset (players.length * 2 + 1) - (count + 1) - 1 =
            min offset (players.length * 2 + 1) - count - 2 from by omega]
        · have heq : count + 1 = offset := by omega
          rw [nextLoop_done players dir offset n (count + 1)
            (stepSeat players.length dir idx) (by omega)]
          have hmin : min offset (players.length * 2 + 1) = offset := by omega
          rw [hmin]
          have hidx : offset - count - 1 = 0 := by omega
          rw [hidx]
          simp
    · rw [if_neg hact, if_neg hact]
      have hbr : ¬(count > players.length * 2) := by omega
      rw [if_neg hbr]
      have hrec := ih count (stepSeat players.length dir idx) h1 h2
      rw [hrec]
      simp

/-- `getNextPlayerIndex` agrees with the walk specification for the
offsets the server uses (any `offset ≤ 2·len`, so the safety `break`
never interferes). -/
theorem getNextPlayerIndex_spec (s : GameState) (offset : Nat)
    (h1 : 1 ≤ offset) (h2 : offset ≤ s.players.length * 2) :
    getNextPlayerIndex s offset = specNextSeat s offset := by
  unfold getNextPlayerIndex specNextSeat
  rw [nextLoop_spec s.players s.direction offset (nextFuel s.players) 0
    s.currentPlayerIndex h1 (by omega)]
  unfold activeWalk
  congr 1
  omega

/-- With at least one active seat and direction `±1`,
`getNextPlayerIndex` always produces an active seat. -/
theorem getNextPlayerIndex_active (s : GameState) (offset : Nat)
    (hdir : s.direction = 1 ∨ s.direction = -1)
    (hact : ∃ p ∈ s.players, isActive p) (h1 : 1 ≤ offset) :
    ∃ j, getNextPlayerIndex s offset = some j ∧ activeAt s.players j = true := by
  rcases hact with ⟨p, hp, hpa⟩
  rcases List.mem_iff_getElem.mp hp with ⟨jp, hjp, hje⟩
  have hseat : activeAt s.players jp = true := by
    unfold activeAt
    rw [List.getElem?_eq_getElem hjp, hje]
    exact hpa
  have hlen : 0 < s.players.length := by omega
  set len := s.players.length with hlendef
  set m := min offset (len * 2 + 1) with hm
  have hm1 : 1 ≤ m := by omega
  have hmlap : len * m ≤ nextFuel s.players := by
    have : m ≤ len * 2 + 1 := by omega
    calc len * m ≤ len * (len * 2 + 1) := Nat.mul_le_mul_left len this
      _ ≤ nextFuel s.players := by unfold nextFuel; rw [← hlendef]; omega
  have hcount : m ≤ (activeWalk s.players s.direction s.currentPlayerIndex
      (nextFuel s.players)).length :=
    activeWalk_ge s.players s.direction hdir jp hseat m (nextFuel s.players)
      s.currentPlayerIndex hmlap
  have hidx : m - 1 < (activeWalk s.players s.direction s.currentPlayerIndex
      (nextFuel s.players)).length := by omega
  refine ⟨(activeWalk s.players s.direction s.currentPlayerIndex (nextFuel s.players))[m - 1],
    ?_, ?_⟩
  · unfold getNextPlayerIndex
    rw [nextLoop_spec s.players s.direction offset (nextFuel s.players) 0
      s.currentPlayerIndex h1 (by omega)]
    rw [show min offset (s.players.length * 2 + 1) - 0 - 1 = m - 1 by omega]
    exact List.getElem?_eq_getElem hidx
  · have hmem := List.getElem_mem hidx
    exact (List.mem_filter.mp hmem).2

/-- `nextLoop` only looks at the roster length and at which seats
are active. -/
theorem nextLoop_congr (ps1 ps2 : List Player) (dir : Int) (offset : Nat)
    (hlen : ps1.length = ps2.length)
    (hflag : ∀ j, activeAt ps1 j = activeAt ps2 j) :
    ∀ (n count idx : Nat),
      nextLoop ps1 dir offset n count idx = nextLoop ps2 dir offset n count idx := by
  intro n
  induction n with
  | zero => intro count idx; rfl
  | succ n ih =>
    intro count idx
    rw [nextLoop, nextLoop, hlen]
    simp only [hflag]
    by_cases h1 : count < offset
    · simp only [if_pos h1]
      by_cases hact : activeAt ps2 (stepSeat ps2.length dir idx) = true
      · simp only [hact, if_true]
        by_cases hbr : count + 1 > ps2.length * 2
        · simp [hbr]
        · simp only [if_neg hbr]
          exact ih _ _
      · simp only [Bool.not_eq_true] at hact
        simp only [hact, Bool.false_eq_true, if_false]
        by_cases hbr : count > ps2.length * 2
        · rw [if_pos hbr, if_pos hbr]
        · rw [if_neg hbr, if_neg hbr]
          exact ih _ _
    · rw [if_neg h1, if_neg h1]

/-- `nextLoop` started with count 0 on a non-empty roster only ever
exits at a stepped seat, which is in range. -/
theorem nextLoop_some_lt (players : List Player) (dir : Int) (offset : Nat)
    (hlen : 0 < players.length) :
    ∀ (n count idx j : Nat), count < offset →
      nextLoop players dir offset n count idx = some j → j < players.length := by
  intro n
  induction n with
  | zero =>
    intro count idx j h1 h2
    simp [nextLoop, h1] at h2
  | succ n ih =>
    intro count idx j h1 h2
    rw [nextLoop, if_pos h1] at h2
    simp only [] at h2
    by_cases hbr : (if activeAt players (stepSeat players.length dir idx) = true then
        count + 1 else count) > players.length * 2
    · rw [if_pos hbr] at h2
      injection h2 with h3
      rw [← h3]
      exact stepSeat_lt players.length dir idx hlen
    · rw [if_neg hbr] at h2
      by_cases hlt : (if activeAt players (stepSeat players.length dir idx) = true then
          count + 1 else count) < offset
      · exact ih _ _ _ hlt h2
      · rw [nextLoop_done players dir offset n _ _ hlt] at h2
        injection h2 with h3
        rw [← h3]
        exact stepSeat_lt players.length dir idx hlen

/-- Roster mutations that keep every hand length also keep the
total hand count. -/
theorem sumHands_map_hand_eq (ps : List Player) (f : Player → Player)
    (hf : ∀ p, ((f p).hand).length = p.hand.length) :
    sumHands (ps.map f) = sumHands ps := by
  induction ps with
  | nil => rfl
  | cons p l ih => simp [sumHands_cons, hf, ih]

theorem sumHands_modify_hand_eq (ps : List Player) (i : Nat) (f : Player → Player)
    (hf : ∀ p, ((f p).hand).length = p.hand.length) :
    sumHands (modifyPlayer ps i f) = sumHands ps := by
  unfold modifyPlayer
  rcases hp : ps[i]? with _ | p
  · rfl
  · show sumHands (ps.set i (f p)) = sumHands ps
    have := sumHands_set ps i p (f p) hp
    have h2 := hf p
    omega

/-- Dealing in `startGame` replaces every hand with cards taken from
the deck: afterwards the dealt hands and the remaining deck together
hold exactly the cards of the incoming deck. -/
theorem dealStart_count :
    ∀ (ps : List Player) (d : List Card),
      sumHands (dealStart ps d).1 + (dealStart ps d).2.length = d.length := by
  intro ps
  induction ps with
  | nil => intro d; simp [dealStart, sumHands_nil]
  | cons p l ih =>
    intro d
    rw [dealStart]
    by_cases hs : p.isSpectator
    · rw [if_pos hs]
      have h1 := ih d
      simp only [sumHands_cons]
      simp at h1 ⊢
      omega
    · rw [if_neg hs]
      have h1 := ih (d.drop 7)
      have hlen : (d.take 7).length + (d.drop 7).length = d.length := by
        rw [List.length_take, List.length_drop]
        omega
      simp only [sumHands_cons]
      simp at h1 ⊢
      omega

/-- Dealing in `nextRound` replaces every active hand with cards from
the deck; inactive hands are untouched and not counted here. -/
theorem dealToActives_count :
    ∀ (ps : List Player) (d : List Card),
      sumHands ((dealToActives ps d).1.filter isActive) +
        (dealToActives ps d).2.length = d.length := by
  intro ps
  induction ps with
  | nil => intro d; simp [dealToActives, sumHands_nil]
  | cons p l ih =>
    intro d
    rw [dealToActives]
    by_cases ha : isActive p = true
    · rw [if_pos ha]
      dsimp only
      have hact2 : isActive { p with hand := d.take 7, hasCalledUno := false, score := 0 } = true := by
        simp only [isActive] at ha ⊢
        exact ha
      have h1 := ih (d.drop 7)
      have hlen : (d.take 7).length + (d.drop 7).length = d.length := by
        rw [List.length_take, List.length_drop]
        omega
      rw [List.filter_cons, if_pos hact2, sumHands_cons]
      simp at h1 ⊢
      omega
    · rw [if_neg ha]
      dsimp only
      have h1 := ih d
      simp only [Bool.not_eq_true] at ha
      rw [List.filter_cons]
      rw [if_neg (by simp [ha])]
      exact h1

/-- Inactive players are untouched by the `nextRound` deal. -/
theorem dealToActives_inactive :
    ∀ (ps : List Player) (d : List Card) (j : Nat) (p : Player),
      ps[j]? = some p → isActive p = false → (dealToActives ps d).1[j]? = some p := by
  intro ps
  induction ps with
  | nil => intro d j p h _; simp at h
  | cons q l ih =>
    intro d j p h hp
    rw [dealToActives]
    by_cases ha : isActive q = true
    · rw [if_pos ha]
      cases j with
      | zero =>
        simp at h
        subst h
        rw [hp] at ha
        simp at ha
      | succ m =>
        simp at h ⊢
        exact ih (d.drop 7) m p h hp
    · rw [if_neg ha]
      cases j with
      | zero =>
        simp at h
        subst h
        simp
      | succ m =>
        simp at h ⊢
        exact ih d m p h hp

/-- With no active seat at all, the walk loop never increments its
count and therefore never terminates (`none` = fuel exhausted). -/
theorem nextLoop_no_active (players : List Player) (dir : Int) (offset : Nat)
    (hoff : 1 ≤ offset) (hact : ∀ j, activeAt players j = false) :
    ∀ (n idx : Nat), nextLoop players dir offset n 0 idx = none := by
  intro n
  induction n with
  | zero => intro idx; simp [nextLoop]; omega
  | succ n ih =>
    intro idx
    rw [nextLoop]
    rw [if_pos (by omega : 0 < offset)]
    simp only [hact, Bool.false_eq_true, if_false]
    rw [if_neg (by omega : ¬(0 > players.length * 2))]
    exact ih _

theorem no_active_seat (players : List Player)
    (h : ∀ p ∈ players, isActive p = false) : ∀ j, activeAt players j = false := by
  intro j
  unfold activeAt
  rcases hj : players[j]? with _ | p
  · rfl
  · exact h p (by
      rcases List.getElem?_eq_some.mp hj with ⟨hb, he⟩
      rw [← he]
      exact List.getElem_mem hb)

theorem drawCards_total (rand : Nat → Nat) (s : GameState) (i count : Nat)
    (hi : i < s.players.length) :
    totalCards (drawCards rand s i count) = totalCards s := by
  unfold drawCards totalCards
  dsimp only
  have h := drawCardsAux_count rand i count s.players s.deck s.discardPile hi
  omega

theorem drawCards_players_length (rand : Nat → Nat) (s : GameState) (i count : Nat) :
    (drawCards rand s i count).players.length = s.players.length := by
  unfold drawCards
  dsimp only
  rcases drawCardsAux_players rand i count s.players s.deck s.discardPile with ⟨extra, he⟩
  rw [he, modifyPlayer_length]

theorem scoredPlayers_sumHands (ps : List Player) (w : Player) :
    sumHands (scoredPlayers ps w) = sumHands ps := by
  apply sumHands_map_hand_eq
  intro p
  by_cases h1 : isActive p = true
  · by_cases h2 : p.id = w.id
    · simp [h1, h2]
    · simp [h1, h2]
  · simp [h1]

theorem scoredPlayers_length (ps : List Player) (w : Player) :
    (scoredPlayers ps w).length = ps.length := by
  unfold scoredPlayers
  rw [List.length_map]

theorem eliminateHighest_sumHands (ps : List Player) (lg : List String) :
    sumHands (eliminateHighest ps lg).1 = sumHands ps := by
  unfold eliminateHighest
  split
  · split
    · split
      · dsimp only
        rw [sumHands_modify_hand_eq]
        intro p
        rfl
      · rfl
    · rfl
  · rfl

theorem eliminateHighest_length (ps : List Player) (lg : List String) :
    (eliminateHighest ps lg).1.length = ps.length := by
  unfold eliminateHighest
  split
  · split
    · split
      · dsimp only
        rw [modifyPlayer_length]
      · rfl
    · rfl
  · rfl

theorem roundWinPlayers_sumHands (s : GameState) (w : Player) :
    sumHands (roundWinPlayers s w).1 = sumHands s.players := by
  unfold roundWinPlayers
  rw [eliminateHighest_sumHands, scoredPlayers_sumHands]

theorem handleRoundWin_total (s : GameState) (w : Player) :
    totalCards (handleRoundWin s w) = totalCards s := by
  unfold handleRoundWin
  split
  · rfl
  · split <;>
      (unfold totalCards; dsimp only; rw [roundWinPlayers_sumHands])

theorem advanceTurn_total (s s2 : GameState) (offset : Nat)
    (h : advanceTurn s offset = some s2) : totalCards s2 = totalCards s := by
  unfold advanceTurn at h
  rcases hg : getNextPlayerIndex s offset with _ | j
  · rw [hg] at h; simp at h
  · rw [hg] at h
    simp at h
    rw [← h]
    rfl

theorem playAct_total (rand : Nat → Nat) (s4 : GameState) (card : Card)
    (s5 : GameState) (nextOffset : Nat) (hlen : 0 < s4.players.length)
    (h : playAct rand s4 card = some (s5, nextOffset)) :
    totalCards s5 = totalCards s4 ∧ s5.players.length = s4.players.length := by
  unfold playAct at h
  by_cases h1 : card.type = CardType.reverse
  · rw [if_pos h1] at h
    dsimp only at h
    by_cases h2 : (s4.players.filter isActive).length = 2
    · rw [if_pos h2] at h
      simp at h
      rw [← h.1]
      exact ⟨rfl, rfl⟩
    · rw [if_neg h2] at h
      simp at h
      rw [← h.1]
      exact ⟨rfl, rfl⟩
  · rw [if_neg h1] at h
    by_cases h2 : card.type = CardType.skip
    · rw [if_pos h2] at h
      simp at h
      rw [← h.1]
      exact ⟨rfl, rfl⟩
    · rw [if_neg h2] at h
      by_cases h3 : card.type = CardType.draw2
      · rw [if_pos h3] at h
        rcases hg : getNextPlayerIndex s4 1 with _ | nextP
        · rw [hg] at h; simp at h
        · rw [hg] at h
          simp at h
          have hnp : nextP < s4.players.length :=
            nextLoop_some_lt s4.players s4.direction 1 hlen _ 0 _ nextP
              (by omega) hg
          rw [← h.1]
          exact ⟨drawCards_total rand s4 nextP 2 hnp,
            drawCards_players_length rand s4 nextP 2⟩
      · rw [if_neg h3] at h
        by_cases h4 : card.type = CardType.wild4
        · rw [if_pos h4] at h
          rcases hg : getNextPlayerIndex s4 1 with _ | nextP
          · rw [hg] at h; simp at h
          · rw [hg] at h
            simp at h
            have hnp : nextP < s4.players.length :=
              nextLoop_some_lt s4.players s4.direction 1 hlen _ 0 _ nextP
                (by omega) hg
            rw [← h.1]
            exact ⟨drawCards_total rand s4 nextP 4 hnp,
              drawCards_players_length rand s4 nextP 4⟩
        · rw [if_neg h4] at h
          simp at h
          rw [← h.1]
          exact ⟨rfl, rfl⟩

theorem playCardGo_total (rand : Nat → Nat) (s : GameState) (playerIndex : Nat)
    (player : Player) (cardIndex : Nat) (card : Card) (wildColor : Option CardColor)
    (s2 : GameState) (hp : s.players[playerIndex]? = some player)
    (hc : player.hand[cardIndex]? = some card)
    (h : playCardGo rand s playerIndex player cardIndex card wildColor = some s2) :
    totalCards s2 = totalCards s := by
  have hip : playerIndex < s.players.length := getElem?_bound hp
  have hic : cardIndex < player.hand.length := getElem?_bound hc
  unfold playCardGo at h
  dsimp only at h
  have h1tot : totalCards (playRemove s playerIndex player cardIndex card) = totalCards s := by
    unfold playRemove totalCards
    dsimp only
    have hs := sumHands_set s.players playerIndex player
      { player with hand := player.hand.eraseIdx cardIndex } hp
    have he : (player.hand.eraseIdx cardIndex).length = player.hand.length - 1 := by
      rw [List.length_eraseIdx]
      simp [hic]
    simp only [List.length_append, List.length_cons, List.length_nil] at hs ⊢
    omega
  have h1len : (playRemove s playerIndex player cardIndex card).players.length =
      s.players.length := by
    unfold playRemove
    dsimp only
    rw [List.length_set]
  set s1 := playRemove s playerIndex player cardIndex card with hs1
  have h2tot : totalCards (playPenalty rand s1 playerIndex player
      (player.hand.eraseIdx cardIndex)) = totalCards s1 := by
    unfold playPenalty
    split
    · have := drawCards_total rand
        { s1 with log := s1.log ++ [player.name ++ " forgot UNO! +1 Card Penalty."] }
        playerIndex 1 (by dsimp only; omega)
      exact this
    · rfl
  have h2len : (playPenalty rand s1 playerIndex player
      (player.hand.eraseIdx cardIndex)).players.length = s1.players.length := by
    unfold playPenalty
    split
    · have := drawCards_players_length rand
        { s1 with log := s1.log ++ [player.name ++ " forgot UNO! +1 Card Penalty."] }
        playerIndex 1
      exact this
    · rfl
  set s2p := playPenalty rand s1 playerIndex player (player.hand.eraseIdx cardIndex)
    with hs2
  have h3tot : totalCards (playUnoReset s2p playerIndex) = totalCards s2p := by
    unfold playUnoReset
    split
    · unfold totalCards
      dsimp only
      rw [sumHands_modify_hand_eq]
      intro p
      rfl
    · rfl
  have h3len : (playUnoReset s2p playerIndex).players.length = s2p.players.length := by
    unfold playUnoReset
    split
    · dsimp only
      rw [modifyPlayer_length]
    · rfl
  set s3 := playUnoReset s2p playerIndex with hs3
  rcases hact : playAct rand { s3 with currentColor := playColor card wildColor } card
    with _ | ⟨s5, nextOffset⟩
  · rw [hact] at h; simp at h
  · rw [hact] at h
    simp only [] at h
    have hlen4 : 0 < ({ s3 with currentColor := playColor card wildColor } :
        GameState).players.length := by
      dsimp only
      omega
    have h4 := playAct_total rand _ card s5 nextOffset hlen4 hact
    have h4tot : totalCards s5 = totalCards s3 := by
      rw [h4.1]
      rfl
    by_cases hwin : (handAt s5 playerIndex).length = 0
    · rw [if_pos hwin] at h
      rcases hw : s5.players[playerIndex]? with _ | winnerNow
      · rw [hw] at h; simp at h
      · rw [hw] at h
        simp at h
        rw [← h, handleRoundWin_total]
        omega
    · rw [if_neg hwin] at h
      have := advanceTurn_total s5 s2 nextOffset h
      omega

theorem playCard_total (rand : Nat → Nat) (s : GameState) (pid : String) (cid : Nat)
    (wc : Option CardColor) (s2 : GameState)
    (h : playCard rand s pid cid wc = some s2) : totalCards s2 = totalCards s := by
  unfold playCard at h
  rcases hf : s.players.findIdx? (fun p => p.id == pid) with _ | i
  · rw [hf] at h
    simp at h
    rw [← h]
  · rw [hf] at h
    simp only [] at h
    by_cases hcur : i ≠ s.currentPlayerIndex
    · rw [if_pos hcur] at h
      simp at h
      rw [← h]
    · rw [if_neg hcur] at h
      rcases hp : s.players[i]? with _ | player
      · rw [hp] at h
        simp at h
        rw [← h]
      · rw [hp] at h
        simp only [] at h
        rcases hcf : player.hand.findIdx? (fun c => c.id == cid) with _ | ci
        · rw [hcf] at h
          simp at h
          rw [← h]
        · rw [hcf] at h
          simp only [] at h
          rcases hcg : player.hand[ci]? with _ | card
          · rw [hcg] at h
            simp at h
            rw [← h]
          · rw [hcg] at h
            simp only [] at h
            rcases hv : isValidMoveTop card s.discardPile.getLast? s.currentColor
              with _ | b
            · rw [hv] at h
              simp at h
            · rw [hv] at h
              cases b
              · simp at h
                rw [← h]
              · simp only [] at h
                exact playCardGo_total rand s i player ci card wc s2 hp hcg h

theorem drawCard_total (rand : Nat → Nat) (s : GameState) (pid : String) (s2 : GameState)
    (h : drawCard rand s pid = some s2) : totalCards s2 = totalCards s := by
  unfold drawCard at h
  rcases hf : s.players.findIdx? (fun p => p.id == pid) with _ | i
  · rw [hf] at h
    simp at h
    rw [← h]
  · rw [hf] at h
    simp only [] at h
    by_cases hcur : i ≠ s.currentPlayerIndex
    · rw [if_pos hcur] at h
      simp at h
      rw [← h]
    · rw [if_neg hcur] at h
      by_cases hi : i < s.players.length
      · have h1 := advanceTurn_total _ _ _ h
        rw [h1]
        have h2 := drawCards_total rand s i 1 hi
        exact h2
      · have hout : s.players[i]? = none := by
          rw [List.getElem?_eq_none]
          omega
        have hfi := hf
        rw [List.findIdx?_eq_some_iff_findIdx_eq] at hfi
        have := hfi.1
        omega

theorem startGame_total (rand : Nat → Nat) (s s2 : GameState)
    (hp : 2 ≤ s.players.length)
    (h : startGame rand s = some s2) : totalCards s2 = 108 := by
  unfold startGame at h
  rw [if_neg (by omega)] at h
  simp only [] at h
  rcases hfl : flipFirst (dealStart s.players (generateDeck rand)).2 with _ | ⟨c, deck2⟩
  · rw [hfl] at h
    simp at h
  · rw [hfl] at h
    simp only [] at h
    rcases hn : firstNonSpectatorFrom (dealStart s.players (generateDeck rand)).1
        (dealStart s.players (generateDeck rand)).1.length 0 with _ | idx
    · rw [hn] at h
      simp at h
    · rw [hn] at h
      simp at h
      rw [← h]
      unfold totalCards
      dsimp only
      have h1 := dealStart_count s.players (generateDeck rand)
      have h2 := (flipFirst_spec _ c deck2 hfl).1
      have h3 := generateDeck_length rand
      simp only [List.length_cons, List.length_nil]
      omega

theorem nextRound_total (rand : Nat → Nat) (s s2 : GameState)
    (h : nextRound rand s = some s2) (hst : s2.status = GameStatus.PLAYING) :
    totalCardsActive s2 = 108 := by
  unfold nextRound at h
  by_cases hg : s.status = GameStatus.GAME_OVER
  · rw [if_pos hg] at h
    simp at h
    rw [← h] at hst
    rw [hg] at hst
    simp at hst
  · rw [if_neg hg] at h
    simp only [] at h
    rcases hfa : s.players.filter isActive with _ | ⟨a, rest⟩
    · rw [hfa] at h
      simp at h
      rw [← h] at hst
      simp at hst
    · rcases rest with _ | ⟨b, rest2⟩
      · rw [hfa] at h
        simp at h
        rw [← h] at hst
        simp at hst
      · rw [hfa] at h
        simp only [] at h
        rcases hfl : flipFirst (dealToActives s.players (generateDeck rand)).2
            with _ | ⟨c, deck2⟩
        · rw [hfl] at h
          simp at h
        · rw [hfl] at h
          simp at h
          rw [← h]
          unfold totalCardsActive
          dsimp only
          have h1 := dealToActives_count s.players (generateDeck rand)
          have h2 := (flipFirst_spec _ c deck2 hfl).1
          have h3 := generateDeck_length rand
          simp only [List.length_cons, List.length_nil]
          omega

/-- C1 (amended): immediately after a successful `startGame` the
cards across deck, discard pile and all hands total exactly 108, and
every successful `playCard`/`drawCard` preserves the all-hands total
(cards only move between deck, discard pile and hands).  After a
successful `nextRound` (one that resumes PLAYING) the 108-card total
holds over the deck, the discard pile and the hands of the active
players only: a player eliminated by round scoring keeps their
previous-round hand, so the total over all hands can exceed 108. -/
theorem claim_C1 :
    (∀ (rand : Nat → Nat) (s s2 : GameState), 2 ≤ s.players.length →
        startGame rand s = some s2 → totalCards s2 = 108) ∧
    (∀ (rand : Nat → Nat) (s s2 : GameState), nextRound rand s = some s2 →
        s2.status = GameStatus.PLAYING → totalCardsActive s2 = 108) ∧
    (∀ (rand : Nat → Nat) (s : GameState) (pid : String) (cid : Nat)
        (wc : Option CardColor) (s2 : GameState),
        playCard rand s pid cid wc = some s2 → totalCards s2 = totalCards s) ∧
    (∀ (rand : Nat → Nat) (s : GameState) (pid : String) (s2 : GameState),
        drawCard rand s pid = some s2 → totalCards s2 = totalCards s) :=
  ⟨fun rand s s2 hp h => startGame_total rand s s2 hp h,
   fun rand s s2 h hst => nextRound_total rand s s2 h hst,
   fun rand s pid cid wc s2 h => playCard_total rand s pid cid wc s2 h,
   fun rand s pid s2 h => drawCard_total rand s pid s2 h⟩

set_option maxRecDepth 200000 in
/-- C1 counterexample to the claim as stated: from the consistent
PLAYING state `exPlayWin` (108 cards in play), `A` wins the round,
`C` is eliminated still holding 3 cards, and the `nextRound` that
follows deals a fresh 108-card deck to the survivors — so
immediately after `nextRound` the cards across deck, discard pile
and all players' hands total 111, not 108. -/
theorem claim_C1_counterexample :
    exPlayWin.status = GameStatus.PLAYING ∧
    totalCards exPlayWin = 108 ∧
    playCard (fun _ => 0) exPlayWin "A" 0 none = some exRoundOver ∧
    exRoundOver.status = GameStatus.ROUND_OVER ∧
    nextRound (fun _ => 0) exRoundOver = some exAfterNextRound ∧
    exAfterNextRound.status = GameStatus.PLAYING ∧
    totalCards exAfterNextRound = 111 := by
  refine ⟨rfl, by decide, by decide, by decide, by decide, by decide, by decide⟩

set_option maxRecDepth 200000 in
/-- C1 witness: the amended invariants evaluated on the concrete
scenarios (game start, next round, a round-winning play, a draw). -/
theorem claim_C1_witness :
    (startGame (fun _ => 0) exLobby = some exStarted ∧ totalCards exStarted = 108) ∧
    (nextRound (fun _ => 0) exRoundOver = some exAfterNextRound ∧
      totalCardsActive exAfterNextRound = 108) ∧
    (playCard (fun _ => 0) exPlayWin "A" 0 none = some exRoundOver ∧
      totalCards exRoundOver = totalCards exPlayWin) ∧
    (drawCard (fun _ => 0) exTwoPlayers "A" = some exDrawn ∧
      totalCards exDrawn = totalCards exTwoPlayers) := by
  have h := claim_C1
  refine ⟨⟨by decide, ?_⟩, ⟨by decide, ?_⟩, ⟨by decide, ?_⟩, ⟨by decide, ?_⟩⟩
  · exact h.1 (fun _ => 0) exLobby exStarted (by decide) (by decide)
  · exact h.2.1 (fun _ => 0) exRoundOver exAfterNextRound (by decide) (by decide)
  · exact h.2.2.1 (fun _ => 0) exPlayWin "A" 0 none exRoundOver (by decide)
  · exact h.2.2.2 (fun _ => 0) exTwoPlayers "A" exDrawn (by decide)

theorem playCard_valid (rand : Nat → Nat) (s : GameState) (pid : String) (cid : Nat)
    (wc : Option CardColor) (i ci : Nat) (player : Player) (card top : Card)
    (hf : s.players.findIdx? (fun p => p.id == pid) = some i)
    (hcur : i = s.currentPlayerIndex)
    (hp : s.players[i]? = some player)
    (hcf : player.hand.findIdx? (fun c => c.id == cid) = some ci)
    (hcg : player.hand[ci]? = some card)
    (htop : s.discardPile.getLast? = some top)
    (hval : isValidMove card top s.currentColor = true) :
    playCard rand s pid cid wc = playCardGo rand s i player ci card wc := by
  subst hcur
  simp [playCard, hf, hp, hcf, hcg, htop, isValidMoveTop, hval]

theorem playRemove_hand (s : GameState) (i : Nat) (player : Player) (ci : Nat)
    (card : Card) (hp : s.players[i]? = some player) :
    (playRemove s i player ci card).players[i]? =
      some { player with hand := player.hand.eraseIdx ci } := by
  unfold playRemove
  dsimp only
  exact List.getElem?_set_self (getElem?_bound hp)

/-- `handAt` for a record update that keeps `players`. -/
theorem handAt_mk (s : GameState) (ps : List Player) (i : Nat) :
    handAt { s with players := ps } i = (match ps[i]? with
      | some p => p.hand
      | none => []) := rfl

theorem drawCards_handAt (rand : Nat → Nat) (s : GameState) (i count j : Nat) :
    ∃ extra : List Card,
      handAt (drawCards rand s i count) j = handAt s j ++ extra := by
  unfold drawCards handAt
  dsimp only
  rcases drawCardsAux_players rand i count s.players s.deck s.discardPile with ⟨extra, he⟩
  rw [he]
  by_cases hj : j = i
  · subst hj
    rcases hp : s.players[j]? with _ | p
    · refine ⟨[], ?_⟩
      simp [modifyPlayer, hp]
    · rw [modifyPlayer_get_self _ _ _ _ hp]
      exact ⟨extra, rfl⟩
  · rw [modifyPlayer_get_ne _ _ _ _ (fun hh => hj hh.symm)]
    exact ⟨[], by simp⟩

/-- A drawn card goes to the target hand exactly when the deck is
non-empty: a single forced draw appends exactly one card. -/
theorem drawCards_one (rand : Nat → Nat) (s : GameState) (i : Nat) (c : Card)
    (p : Player) (hd : s.deck.getLast? = some c) (hp : s.players[i]? = some p) :
    (drawCards rand s i 1).players[i]? = some { p with hand := p.hand ++ [c] } := by
  have hne : s.deck ≠ [] := by
    intro he
    rw [he] at hd
    simp at hd
  have hie : s.deck.isEmpty = false := by
    rcases hdk : s.deck with _ | ⟨x, xs⟩
    · exact absurd hdk hne
    · rfl
  unfold drawCards
  dsimp only
  rw [drawCardsAux]
  simp only [hie, Bool.false_eq_true, if_false, hd]
  rw [drawCardsAux]
  dsimp only
  exact modifyPlayer_get_self _ _ _ _ hp

/-- The two roster lists hold the same seats with the same
active/inactive flags. -/
def sameActive (ps1 ps2 : List Player) : Prop :=
  ps1.length = ps2.length ∧
    ∀ j : Nat, (ps1[j]?).map isActive = (ps2[j]?).map isActive

theorem sameActive_refl (ps : List Player) : sameActive ps ps :=
  ⟨rfl, fun _ => rfl⟩

theorem sameActive_trans {ps1 ps2 ps3 : List Player}
    (h1 : sameActive ps1 ps2) (h2 : sameActive ps2 ps3) : sameActive ps1 ps3 :=
  ⟨h1.1.trans h2.1, fun j => (h1.2 j).trans (h2.2 j)⟩

theorem sameActive_set (ps : List Player) (i : Nat) (p q : Player)
    (hp : ps[i]? = some p) (hq : isActive q = isActive p) :
    sameActive (ps.set i q) ps := by
  refine ⟨List.length_set ps i q, fun j => ?_⟩
  by_cases hj : i = j
  · subst hj
    rw [List.getElem?_set_self (getElem?_bound hp), hp]
    simp [hq]
  · rw [List.getElem?_set_ne hj]

theorem sameActive_modify (ps : List Player) (i : Nat) (f : Player → Player)
    (hf : ∀ p, isActive (f p) = isActive p) :
    sameActive (modifyPlayer ps i f) ps := by
  unfold modifyPlayer
  rcases hp : ps[i]? with _ | p
  · exact sameActive_refl ps
  · exact sameActive_set ps i p (f p) hp (hf p)

theorem sameActive_activeAt {ps1 ps2 : List Player} (h : sameActive ps1 ps2)
    (j : Nat) : activeAt ps1 j = activeAt ps2 j := by
  have h2 := h.2 j
  unfold activeAt
  rcases h1 : ps1[j]? with _ | p <;> rcases h3 : ps2[j]? with _ | q <;>
    rw [h1, h3] at h2 <;> simp at h2 <;> simp [h2]

theorem sameActive_filter_length :
    ∀ (ps1 ps2 : List Player), sameActive ps1 ps2 →
      (ps1.filter isActive).length = (ps2.filter isActive).length := by
  intro ps1
  induction ps1 with
  | nil =>
    intro ps2 h
    rcases ps2 with _ | ⟨q, l2⟩
    · rfl
    · have := h.1
      simp at this
  | cons p l1 ih =>
    intro ps2 h
    rcases ps2 with _ | ⟨q, l2⟩
    · have := h.1
      simp at this
    · have hhead := h.2 0
      simp at hhead
      have htail : sameActive l1 l2 := by
        refine ⟨?_, fun j => ?_⟩
        · have := h.1
          simp at this
          exact this
        · have := h.2 (j + 1)
          simpa using this
      rw [List.filter_cons, List.filter_cons, hhead]
      by_cases hq : isActive q = true
      · rw [hq]
        simp [ih l2 htail]
      · simp only [Bool.not_eq_true] at hq
        rw [hq]
        simp [ih l2 htail]

theorem drawCards_sameActive (rand : Nat → Nat) (s : GameState) (i count : Nat) :
    sameActive (drawCards rand s i count).players s.players := by
  unfold drawCards
  dsimp only
  rcases drawCardsAux_players rand i count s.players s.deck s.discardPile with ⟨extra, he⟩
  rw [he]
  apply sameActive_modify
  intro p
  rfl

theorem playRemove_sameActive (s : GameState) (i : Nat) (player : Player) (ci : Nat)
    (card : Card) (hp : s.players[i]? = some player) :
    sameActive (playRemove s i player ci card).players s.players := by
  unfold playRemove
  dsimp only
  exact sameActive_set s.players i player _ hp rfl

theorem playUnoReset_sameActive (s : GameState) (i : Nat) :
    sameActive (playUnoReset s i).players s.players := by
  unfold playUnoReset
  split
  · dsimp only
    apply sameActive_modify
    intro p
    rfl
  · exact sameActive_refl s.players

theorem playUnoReset_handAt (s : GameState) (i j : Nat) :
    handAt (playUnoReset s i) j = handAt s j := by
  unfold playUnoReset
  split
  · unfold handAt
    dsimp only
    by_cases hj : j = i
    · subst hj
      rcases hp : s.players[j]? with _ | p
      · simp [modifyPlayer, hp]
      · rw [modifyPlayer_get_self _ _ _ _ hp]
    · rw [modifyPlayer_get_ne _ _ _ _ (fun hh => hj hh.symm)]
  · rfl

theorem advanceTurn_parts (s s2 : GameState) (offset : Nat)
    (h : advanceTurn s offset = some s2) :
    s2.players = s.players ∧ s2.status = s.status ∧ s2.winner = s.winner ∧
      s2.log = s.log ∧ s2.deck = s.deck ∧ s2.discardPile = s.discardPile ∧
      s2.direction = s.direction ∧
      getNextPlayerIndex s offset = some s2.currentPlayerIndex := by
  unfold advanceTurn at h
  rcases hg : getNextPlayerIndex s offset with _ | j
  · rw [hg] at h
    simp at h
  · rw [hg] at h
    simp at h
    rw [← h]
    exact ⟨rfl, rfl, rfl, rfl, rfl, rfl, rfl, rfl⟩

theorem handAt_eq (s : GameState) (i : Nat) (q : Player)
    (hp : s.players[i]? = some q) : handAt s i = q.hand := by
  unfold handAt
  rw [hp]

theorem playUnoReset_parts (s : GameState) (i : Nat) :
    (playUnoReset s i).status = s.status ∧ (playUnoReset s i).winner = s.winner ∧
      (playUnoReset s i).log = s.log ∧ (playUnoReset s i).deck = s.deck ∧
      (playUnoReset s i).discardPile = s.discardPile ∧
      (playUnoReset s i).currentPlayerIndex = s.currentPlayerIndex ∧
      (playUnoReset s i).direction = s.direction ∧
      (playUnoReset s i).currentColor = s.currentColor ∧
      (playUnoReset s i).mode = s.mode := by
  unfold playUnoReset
  split
  · exact ⟨rfl, rfl, rfl, rfl, rfl, rfl, rfl, rfl, rfl⟩
  · exact ⟨rfl, rfl, rfl, rfl, rfl, rfl, rfl, rfl, rfl⟩

theorem playAct_parts (rand : Nat → Nat) (s4 : GameState) (card : Card)
    (s5 : GameState) (off : Nat) (h : playAct rand s4 card = some (s5, off)) :
    s5.status = s4.status ∧ s5.winner = s4.winner ∧ s5.log = s4.log ∧
      sameActive s5.players s4.players ∧
      s5.currentPlayerIndex = s4.currentPlayerIndex ∧ s5.mode = s4.mode ∧
      (∀ j : Nat, ∃ extra : List Card, handAt s5 j = handAt s4 j ++ extra) := by
  unfold playAct at h
  by_cases h1 : card.type = CardType.reverse
  · rw [if_pos h1] at h
    dsimp only at h
    by_cases h2 : (s4.players.filter isActive).length = 2
    · rw [if_pos h2] at h
      simp at h
      rw [← h.1]
      exact ⟨rfl, rfl, rfl, sameActive_refl _, rfl, rfl, fun j => ⟨[], by simp [handAt]⟩⟩
    · rw [if_neg h2] at h
      simp at h
      rw [← h.1]
      exact ⟨rfl, rfl, rfl, sameActive_refl _, rfl, rfl, fun j => ⟨[], by simp [handAt]⟩⟩
  · rw [if_neg h1] at h
    by_cases h2 : card.type = CardType.skip
    · rw [if_pos h2] at h
      simp at h
      rw [← h.1]
      exact ⟨rfl, rfl, rfl, sameActive_refl _, rfl, rfl, fun j => ⟨[], by simp [handAt]⟩⟩
    · rw [if_neg h2] at h
      by_cases h3 : card.type = CardType.draw2
      · rw [if_pos h3] at h
        rcases hg : getNextPlayerIndex s4 1 with _ | nextP
        · rw [hg] at h
          simp at h
        · rw [hg] at h
          simp at h
          rw [← h.1]
          exact ⟨rfl, rfl, rfl, drawCards_sameActive rand s4 nextP 2, rfl, rfl,
            fun j => drawCards_handAt rand s4 nextP 2 j⟩
      · rw [if_neg h3] at h
        by_cases h4 : card.type = CardType.wild4
        · rw [if_pos h4] at h
          rcases hg : getNextPlayerIndex s4 1 with _ | nextP
          · rw [hg] at h
            simp at h
          · rw [hg] at h
            simp at h
            rw [← h.1]
            exact ⟨rfl, rfl, rfl, drawCards_sameActive rand s4 nextP 4, rfl, rfl,
              fun j => drawCards_handAt rand s4 nextP 4 j⟩
        · rw [if_neg h4] at h
          simp at h
          rw [← h.1]
          exact ⟨rfl, rfl, rfl, sameActive_refl _, rfl, rfl, fun j => ⟨[], by simp [handAt]⟩⟩

theorem playAct_keep (rand : Nat → Nat) (s4 : GameState) (card : Card)
    (s5 : GameState) (off : Nat)
    (hty : card.type ≠ CardType.draw2 ∧ card.type ≠ CardType.wild4)
    (h : playAct rand s4 card = some (s5, off)) : s5.players = s4.players := by
  unfold playAct at h
  by_cases h1 : card.type = CardType.reverse
  · rw [if_pos h1] at h
    dsimp only at h
    by_cases h2 : (s4.players.filter isActive).length = 2
    · rw [if_pos h2] at h
      simp at h
      rw [← h.1]
    · rw [if_neg h2] at h
      simp at h
      rw [← h.1]
  · rw [if_neg h1] at h
    by_cases h2 : card.type = CardType.skip
    · rw [if_pos h2] at h
      simp at h
      rw [← h.1]
    · rw [if_neg h2] at h
      rw [if_neg hty.1, if_neg hty.2] at h
      simp at h
      rw [← h.1]

theorem dealToActives_length :
    ∀ (ps : List Player) (d : List Card), (dealToActives ps d).1.length = ps.length := by
  intro ps
  induction ps with
  | nil => intro d; rfl
  | cons p l ih =>
    intro d
    rw [dealToActives]
    by_cases ha : isActive p = true
    · rw [if_pos ha]
      simp [ih (d.drop 7)]
    · rw [if_neg ha]
      simp [ih d]

theorem dealToActives_active_get :
    ∀ (ps : List Player) (d : List Card) (j : Nat) (p : Player),
      ps[j]? = some p → isActive p = true →
      ∃ t : Nat, t ≤ 7 * j ∧ (dealToActives ps d).1[j]? =
        some { p with hand := (d.drop t).take 7, hasCalledUno := false, score := 0 } := by
  intro ps
  induction ps with
  | nil => intro d j p h _; simp at h
  | cons q l ih =>
    intro d j p h hp
    rw [dealToActives]
    by_cases ha : isActive q = true
    · rw [if_pos ha]
      cases j with
      | zero =>
        simp at h
        subst h
        refine ⟨0, by omega, ?_⟩
        simp
      | succ m =>
        simp at h
        rcases ih (d.drop 7) m p h hp with ⟨t, ht, he⟩
        refine ⟨t + 7, by omega, ?_⟩
        simp only [List.getElem?_cons_succ]
        rw [he, List.drop_drop, Nat.add_comm 7 t]
    · rw [if_neg ha]
      cases j with
      | zero =>
        simp at h
        subst h
        rw [hp] at ha
        simp at ha
      | succ m =>
        simp at h
        rcases ih d m p h hp with ⟨t, ht, he⟩
        refine ⟨t, by omega, ?_⟩
        simp only [List.getElem?_cons_succ]
        exact he

theorem filter_head_first :
    ∀ (ps : List Player) (f : Player → Bool) (a : Player) (l : List Player),
      ps.filter f = a :: l → ∃ j : Nat, ps[j]? = some a ∧ f a = true ∧
        ∀ (k : Nat) (q : Player), k < j → ps[k]? = some q → f q = false := by
  intro ps
  induction ps with
  | nil => intro f a l h; simp at h
  | cons p ps2 ih =>
    intro f a l h
    rw [List.filter_cons] at h
    by_cases hf : f p = true
    · rw [if_pos hf] at h
      injection h with h1 h2
      subst h1
      exact ⟨0, by simp, hf, fun k q hk _ => by omega⟩
    · simp only [Bool.not_eq_true] at hf
      rw [hf] at h
      simp at h
      rcases ih f a l h with ⟨j, h1, h2, h3⟩
      refine ⟨j + 1, by simpa using h1, h2, ?_⟩
      intro k q hk hq
      cases k with
      | zero =>
        simp at hq
        subst hq
        exact hf
      | succ m =>
        simp at hq
        exact h3 m q (by omega) hq

theorem findIdx?_spec :
    ∀ (ps : List Player) (pred : Player → Bool) (j : Nat) (x : Player),
      ps[j]? = some x → pred x = true →
      (∀ (k : Nat) (q : Player), k < j → ps[k]? = some q → pred q = false) →
      ps.findIdx? pred = some j := by
  intro ps
  induction ps with
  | nil => intro pred j x h _ _; simp at h
  | cons p l ih =>
    intro pred j x h hx hk
    cases j with
    | zero =>
      simp at h
      subst h
      simp [List.findIdx?_cons, hx]
    | succ m =>
      simp at h
      have hp : pred p = false := hk 0 p (by omega) (by simp)
      rw [List.findIdx?_cons, hp]
      simp only [Bool.false_eq_true, if_false]
      have := ih pred m x h hx (fun k q hlt hq => hk (k + 1) q (by omega) (by simpa using hq))
      rw [List.findIdx?_succ, this]
      rfl

theorem nodup_ids_ne (ps : List Player) (hnod : (ps.map Player.id).Nodup)
    (k j : Nat) (q a : Player) (hne : k ≠ j)
    (hk : ps[k]? = some q) (hj : ps[j]? = some a) : q.id ≠ a.id := by
  intro he
  rcases List.getElem?_eq_some.mp hk with ⟨hkb, hke⟩
  rcases List.getElem?_eq_some.mp hj with ⟨hjb, hje⟩
  have hkb2 : k < (ps.map Player.id).length := by simpa using hkb
  have hjb2 : j < (ps.map Player.id).length := by simpa using hjb
  have h1 : (ps.map Player.id)[k] = (ps.map Player.id)[j] := by
    rw [List.getElem_map, List.getElem_map, hke, hje]
    exact he
  exact hne (hnod.getElem_inj_iff.mp h1)

/-- C8 (amended): `nextRound` is a silent no-op only when
`status = GAME_OVER`; in any other status — including LOBBY and
PLAYING — it runs the full next-round procedure.  Whenever it
resumes PLAYING it deals 7 fresh cards to every active
(non-eliminated, non-spectator) player and resets their
`hasCalledUno` and score, leaves every inactive player untouched,
picks a non-black opening card which also becomes the current
color, and sets the starting turn to the earliest surviving
player. -/
theorem activeAt_cons_zero (p : Player) (l : List Player) :
    activeAt (p :: l) 0 = isActive p := by
  simp [activeAt]

theorem activeAt_cons_succ (p : Player) (l : List Player) (j : Nat) :
    activeAt (p :: l) (j + 1) = activeAt l j := by
  simp [activeAt]

theorem activeAt_range_filter :
    ∀ ps : List Player, ((List.range ps.length).filter (activeAt ps)).length =
      (ps.filter isActive).length := by
  intro ps
  induction ps with
  | nil => rfl
  | cons p l ih =>
    rw [List.length_cons, List.range_succ_eq_map, List.filter_cons, List.filter_cons]
    rw [List.filter_map]
    have hc : (activeAt (p :: l)) ∘ Nat.succ = activeAt l :=
      funext (activeAt_cons_succ p l)
    rw [hc, activeAt_cons_zero]
    by_cases hp : isActive p = true
    · rw [if_pos hp, if_pos hp]
      simp [ih]
    · simp only [Bool.not_eq_true] at hp
      rw [hp]
      simp [ih]

theorem walkLap (len : Nat) (dir : Int) (i : Nat) (hlen : 0 < len) (hi : i < len)
    (hdir : dir = 1 ∨ dir = -1) : walkSeat len dir i len = i := by
  rcases hdir with h | h
  · subst h
    rw [walkSeat_pos_eq len i len (by omega), Nat.add_mod_right, Nat.mod_eq_of_lt hi]
  · subst h
    rw [walkSeat_neg_eq len i hlen len (by omega)]
    have he : i + len * (len - 1) = i + (len - 1) * len := by ring
    rw [he, Nat.add_mul_mod_self_right, Nat.mod_eq_of_lt hi]

theorem walkInj (len : Nat) (dir : Int) (i : Nat) (hlen : 0 < len)
    (hdir : dir = 1 ∨ dir = -1) (t t' : Nat) (ht1 : 1 ≤ t) (ht2 : t ≤ len)
    (ht1' : 1 ≤ t') (ht2' : t' ≤ len)
    (he : walkSeat len dir i t = walkSeat len dir i t') : t = t' := by
  have hcong : t % len = t' % len := by
    rcases hdir with h | h
    · subst h
      rw [walkSeat_pos_eq len i t ht1, walkSeat_pos_eq len i t' ht1'] at he
      have h2 : Nat.ModEq len (i + t) (i + t') := he
      exact h2.add_left_cancel' i
    · subst h
      rw [walkSeat_neg_eq len i hlen t ht1, walkSeat_neg_eq len i hlen t' ht1'] at he
      have h2 : Nat.ModEq len (i + t * (len - 1)) (i + t' * (len - 1)) := he
      have h3 := h2.add_right (t + t')
      have hm1 : t * (len - 1) + t = t * len := by
        calc t * (len - 1) + t = t * ((len - 1) + 1) := by ring
        _ = t * len := by rw [show (len - 1) + 1 = len from by omega]
      have hm2 : t' * (len - 1) + t' = t' * len := by
        calc t' * (len - 1) + t' = t' * ((len - 1) + 1) := by ring
        _ = t' * len := by rw [show (len - 1) + 1 = len from by omega]
      have e1 : i + t * (len - 1) + (t + t') = i + t' + t * len := by omega
      have e2 : i + t' * (len - 1) + (t + t') = i + t + t' * len := by omega
      rw [e1, e2] at h3
      have h4 : (i + t') % len = (i + t) % len := by
        have h5 : (i + t' + t * len) % len = (i + t + t' * len) % len := h3
        rwa [Nat.add_mul_mod_self_right, Nat.add_mul_mod_self_right] at h5
      have h6 : Nat.ModEq len (i + t') (i + t) := h4
      exact (h6.add_left_cancel' i).symm
  rcases Nat.le_total t t' with hle | hle
  · have hd := (Nat.modEq_iff_dvd' hle).mp hcong
    have hz : t' - t = 0 := by
      by_contra hnz
      have := Nat.le_of_dvd (by omega) hd
      omega
    omega
  · have hd := (Nat.modEq_iff_dvd' hle).mp hcong.symm
    have hz : t - t' = 0 := by
      by_contra hnz
      have := Nat.le_of_dvd (by omega) hd
      omega
    omega

theorem twoActive_walk (ps : List Player) (dir : Int) (i : Nat)
    (hdir : dir = 1 ∨ dir = -1) (hi : activeAt ps i = true)
    (h2 : (ps.filter isActive).length = 2) :
    ∃ b, activeWalk ps dir i ps.length = [b, i] := by
  have hilen : i < ps.length := activeAt_lt ps i hi
  have hlen : 0 < ps.length := by omega
  have hseats : ((List.range ps.length).filter (activeAt ps)).length = 2 := by
    rw [activeAt_range_filter]
    exact h2
  rcases List.length_eq_two.mp hseats with ⟨u, v, huv⟩
  have hnodup : ((List.range ps.length).filter (activeAt ps)).Nodup :=
    (List.nodup_range ps.length).filter _
  rw [huv] at hnodup
  have huvne : u ≠ v := by
    intro he
    rw [he] at hnodup
    simp at hnodup
  have hmemchar : ∀ j, activeAt ps j = true → j = u ∨ j = v := by
    intro j hj
    have hjlen : j < ps.length := activeAt_lt ps j hj
    have hmem : j ∈ (List.range ps.length).filter (activeAt ps) :=
      List.mem_filter.mpr ⟨List.mem_range.mpr hjlen, hj⟩
    rw [huv] at hmem
    simpa using hmem
  have hu : activeAt ps u = true := by
    have hm : u ∈ (List.range ps.length).filter (activeAt ps) := by
      rw [huv]; simp
    exact (List.mem_filter.mp hm).2
  have hv : activeAt ps v = true := by
    have hm : v ∈ (List.range ps.length).filter (activeAt ps) := by
      rw [huv]; simp
    exact (List.mem_filter.mp hm).2
  have hbex : ∃ b, b ≠ i ∧ activeAt ps b = true ∧
      (∀ j, activeAt ps j = true → j = i ∨ j = b) := by
    rcases hmemchar i hi with hh | hh
    · subst hh
      exact ⟨v, fun he => huvne he.symm, hv, hmemchar⟩
    · subst hh
      exact ⟨u, fun he => huvne he, hu, fun j hj => (hmemchar j hj).symm⟩
  rcases hbex with ⟨b, hbne, hbact, hchar⟩
  have hblen : b < ps.length := activeAt_lt ps b hbact
  rcases existsWalkHit ps.length dir i b hlen hdir hblen with ⟨tb, htb1, htb2, htb3⟩
  have hlap : walkSeat ps.length dir i ps.length = i := walkLap ps.length dir i hlen hilen hdir
  have htbne : tb ≠ ps.length := by
    intro he
    rw [he, hlap] at htb3
    exact hbne htb3.symm
  have htblt : tb < ps.length := by omega
  have hAW1 : activeWalk ps dir i tb = [b] := by
    have hsp : tb = (tb - 1) + 1 := by omega
    rw [hsp, activeWalk_append]
    have hempty : activeWalk ps dir i (tb - 1) = [] := by
      unfold activeWalk
      apply List.filter_eq_nil_iff.mpr
      intro x hx hxa
      rcases (mem_walkSeats ps dir i (tb - 1) x).mp hx with ⟨t, ht1, ht2, hte⟩
      rcases hchar x hxa with hxe | hxe
      · rw [hxe] at hte
        have := walkInj ps.length dir i hlen hdir t ps.length ht1 (by omega)
          (by omega) (le_refl _) (by rw [hte, hlap])
        omega
      · rw [hxe] at hte
        have := walkInj ps.length dir i hlen hdir t tb ht1 (by omega)
          htb1 htb2 (by rw [hte, htb3])
        omega
    rw [hempty]
    have hstep : stepSeat ps.length dir (walkSeat ps.length dir i (tb - 1)) = b := by
      have h1 : walkSeat ps.length dir i ((tb - 1) + 1) =
          stepSeat ps.length dir (walkSeat ps.length dir i (tb - 1)) := rfl
      rw [← h1, ← hsp, htb3]
    unfold activeWalk
    rw [walkSeats_one, hstep]
    simp [hbact]
  have hwalkb : ∀ u : Nat, walkSeat ps.length dir b u = walkSeat ps.length dir i (tb + u) := by
    intro u
    have h1 := walkSeat_add ps.length dir i u tb
    rw [htb3] at h1
    exact h1.symm
  have hAW2 : activeWalk ps dir b (ps.length - tb) = [i] := by
    have hsp2 : ps.length - tb = (ps.length - tb - 1) + 1 := by omega
    rw [hsp2, activeWalk_append]
    have hempty2 : activeWalk ps dir b (ps.length - tb - 1) = [] := by
      unfold activeWalk
      apply List.filter_eq_nil_iff.mpr
      intro x hx hxa
      rcases (mem_walkSeats ps dir b (ps.length - tb - 1) x).mp hx with ⟨u, hu1, hu2, hue⟩
      rw [hwalkb u] at hue
      rcases hchar x hxa with hxe | hxe
      · rw [hxe] at hue
        have := walkInj ps.length dir i hlen hdir (tb + u) ps.length (by omega)
          (by omega) (by omega) (le_refl _) (by rw [hue, hlap])
        omega
      · rw [hxe] at hue
        have := walkInj ps.length dir i hlen hdir (tb + u) tb (by omega)
          (by omega) htb1 htb2 (by rw [hue, htb3])
        omega
    rw [hempty2]
    have hstep2 : stepSeat ps.length dir (walkSeat ps.length dir b (ps.length - tb - 1)) = i := by
      have h1 : walkSeat ps.length dir b ((ps.length - tb - 1) + 1) =
          stepSeat ps.length dir (walkSeat ps.length dir b (ps.length - tb - 1)) := rfl
      rw [← h1, hwalkb, show tb + (ps.length - tb - 1 + 1) = ps.length from by omega, hlap]
    unfold activeWalk
    rw [walkSeats_one, hstep2]
    simp [hi]
  refine ⟨b, ?_⟩
  calc activeWalk ps dir i ps.length
      = activeWalk ps dir i (tb + (ps.length - tb)) := by
        rw [show tb + (ps.length - tb) = ps.length from by omega]
    _ = activeWalk ps dir i tb ++
        activeWalk ps dir (walkSeat ps.length dir i tb) (ps.length - tb) :=
        activeWalk_append ps dir i tb (ps.length - tb)
    _ = [b] ++ [i] := by rw [htb3, hAW1, hAW2]
    _ = [b, i] := rfl

theorem twoActive_getNext (s : GameState)
    (hdir : s.direction = 1 ∨ s.direction = -1)
    (hi : activeAt s.players s.currentPlayerIndex = true)
    (h2 : (s.players.filter isActive).length = 2) :
    getNextPlayerIndex s 2 = some s.currentPlayerIndex := by
  have hlen2 : 2 ≤ s.players.length := by
    have := List.length_filter_le isActive s.players
    omega
  rw [getNextPlayerIndex_spec s 2 (by omega) (by omega)]
  unfold specNextSeat
  rcases twoActive_walk s.players s.direction s.currentPlayerIndex hdir hi h2 with ⟨b, hAW⟩
  have hilen : s.currentPlayerIndex < s.players.length := activeAt_lt _ _ hi
  have hmul : s.players.length ≤ s.players.length * (s.players.length * 2 + 1) :=
    Nat.le_mul_of_pos_right _ (by omega)
  have hfuel : nextFuel s.players =
      s.players.length + (nextFuel s.players - s.players.length) := by
    unfold nextFuel
    omega
  rw [hfuel, activeWalk_append,
    walkLap s.players.length s.direction s.currentPlayerIndex (by omega) hilen hdir, hAW]
  rw [List.getElem?_append, if_pos (by simp)]
  rfl

theorem activeWalk_congr (ps1 ps2 : List Player) (h : sameActive ps1 ps2)
    (dir : Int) (start n : Nat) :
    activeWalk ps1 dir start n = activeWalk ps2 dir start n := by
  unfold activeWalk walkSeats
  rw [h.1]
  apply List.filter_congr
  intro x _
  exact sameActive_activeAt h x

theorem playPenalty_sameActive (rand : Nat → Nat) (s1 : GameState) (i : Nat)
    (player : Player) (hand1 : List Card) :
    sameActive (playPenalty rand s1 i player hand1).players s1.players := by
  unfold playPenalty
  split
  · exact drawCards_sameActive rand _ i 1
  · exact sameActive_refl _

theorem playPenalty_parts (rand : Nat → Nat) (s1 : GameState) (i : Nat)
    (player : Player) (hand1 : List Card) :
    (playPenalty rand s1 i player hand1).direction = s1.direction ∧
    (playPenalty rand s1 i player hand1).currentPlayerIndex = s1.currentPlayerIndex := by
  unfold playPenalty
  split
  · exact ⟨rfl, rfl⟩
  · exact ⟨rfl, rfl⟩

theorem playPenalty_handAt (rand : Nat → Nat) (s1 : GameState) (i : Nat)
    (player : Player) (hand1 : List Card) (j : Nat) :
    ∃ extra : List Card,
      handAt (playPenalty rand s1 i player hand1) j = handAt s1 j ++ extra := by
  unfold playPenalty
  split
  · rcases drawCards_handAt rand
      { s1 with log := s1.log ++ [player.name ++ " forgot UNO! +1 Card Penalty."] }
      i 1 j with ⟨extra, he⟩
    exact ⟨extra, he⟩
  · exact ⟨[], by simp⟩

theorem foldHighest_spec :
    ∀ (ps : List Player) (p : Player),
      (ps.foldl (fun best q => if q.score > best.score then q else best) p ∈ p :: ps) ∧
      ∀ x ∈ p :: ps,
        x.score ≤ (ps.foldl (fun best q => if q.score > best.score then q else best) p).score := by
  intro ps
  induction ps with
  | nil =>
    intro p
    constructor
    · simp
    · intro x hx
      simp at hx
      subst hx
      exact le_refl _
  | cons q l ih =>
    intro p
    rw [List.foldl_cons]
    have hfq : (if q.score > p.score then q else p) = q ∨
        (if q.score > p.score then q else p) = p := by
      by_cases h : q.score > p.score
      · rw [if_pos h]; exact Or.inl rfl
      · rw [if_neg h]; exact Or.inr rfl
    rcases ih (if q.score > p.score then q else p) with ⟨hmem, hbound⟩
    constructor
    · rcases hfq with he | he <;> rw [he] at hmem ⊢ <;>
        simp only [List.mem_cons] at hmem ⊢ <;> tauto
    · intro x hx
      simp only [List.mem_cons] at hx
      rcases hx with hx | hx | hx
      · subst hx
        have h1 : x.score ≤ (if q.score > x.score then q else x).score := by
          by_cases h : q.score > x.score
          · rw [if_pos h]; omega
          · rw [if_neg h]
        exact le_trans h1 (hbound _ (List.mem_cons_self _ _))
      · subst hx
        have h1 : x.score ≤ (if x.score > p.score then x else p).score := by
          by_cases h : x.score > p.score
          · rw [if_pos h]
          · rw [if_neg h]; omega
        exact le_trans h1 (hbound _ (List.mem_cons_self _ _))
      · exact hbound x (List.mem_cons_of_mem _ hx)

theorem pickHighest_spec (l : List Player) (r : Player) (h : pickHighest l = some r) :
    r ∈ l ∧ ∀ x ∈ l, x.score ≤ r.score := by
  rcases l with _ | ⟨p, ps⟩
  · simp [pickHighest] at h
  · unfold pickHighest at h
    injection h with h1
    rcases foldHighest_spec ps p with ⟨hm, hb⟩
    rw [h1] at hm hb
    exact ⟨hm, hb⟩

theorem scoredPlayers_get (ps : List Player) (w : Player) (j : Nat) :
    (scoredPlayers ps w)[j]? = (ps[j]?).map (fun p =>
      if isActive p then
        if p.id = w.id then { p with score := 0 }
        else { p with score := calculateHandScore p.hand }
      else p) := by
  unfold scoredPlayers
  exact List.getElem?_map _ _ _

theorem scored_id (w p : Player) :
    (if isActive p then
      if p.id = w.id then { p with score := 0 }
      else { p with score := calculateHandScore p.hand }
    else p).id = p.id := by
  by_cases h1 : isActive p = true
  · rw [if_pos h1]
    by_cases h2 : p.id = w.id
    · rw [if_pos h2]
    · rw [if_neg h2]
  · rw [if_neg h1]

theorem scored_isActive (w p : Player) :
    isActive (if isActive p then
      if p.id = w.id then { p with score := 0 }
      else { p with score := calculateHandScore p.hand }
    else p) = isActive p := by
  by_cases h1 : isActive p = true
  · rw [if_pos h1]
    by_cases h2 : p.id = w.id
    · rw [if_pos h2]; rfl
    · rw [if_neg h2]; rfl
  · rw [if_neg h1]

theorem eliminateHighest_get (ps : List Player) (lg : List String) (j : Nat) :
    ((eliminateHighest ps lg).1)[j]? = ps[j]? ∨
    ∃ p, ps[j]? = some p ∧
      ((eliminateHighest ps lg).1)[j]? = some { p with isEliminated := true } := by
  unfold eliminateHighest
  rcases hph : pickHighest (ps.filter isActive) with _ | hs
  · left; rfl
  · dsimp only
    by_cases hpos : hs.score > 0
    · rw [if_pos hpos]
      rcases hfi : ps.findIdx? (fun p => p.id == hs.id) with _ | jm
      · rw [hfi]; left; rfl
      · rw [hfi]
        dsimp only
        by_cases hj : jm = j
        · subst hj
          rcases hq : ps[jm]? with _ | p
          · left
            unfold modifyPlayer
            rw [hq]
            exact hq
          · right
            exact ⟨p, rfl, modifyPlayer_get_self ps jm _ p hq⟩
        · left
          exact modifyPlayer_get_ne ps jm j _ hj
    · rw [if_neg hpos]; left; rfl

theorem drawCards_get_ne (rand : Nat → Nat) (s : GameState) (pi count j : Nat)
    (hj : j ≠ pi) :
    (drawCards rand s pi count).players[j]? = s.players[j]? := by
  unfold drawCards
  dsimp only
  rcases drawCardsAux_players rand pi count s.players s.deck s.discardPile with ⟨extra, he⟩
  rw [he, modifyPlayer_get_ne _ _ _ _ (fun h => hj h.symm)]

theorem drawCards_get_self (rand : Nat → Nat) (s : GameState) (pi count : Nat)
    (p : Player) (hp : s.players[pi]? = some p) :
    ∃ extra : List Card,
      (drawCards rand s pi count).players[pi]? = some { p with hand := p.hand ++ extra } := by
  unfold drawCards
  dsimp only
  rcases drawCardsAux_players rand pi count s.players s.deck s.discardPile with ⟨extra, he⟩
  refine ⟨extra, ?_⟩
  rw [he, modifyPlayer_get_self _ _ _ _ hp]

theorem playAct_some (rand : Nat → Nat) (s4 : GameState) (card : Card)
    (hd2 : card.type ≠ CardType.draw2) (hw4 : card.type ≠ CardType.wild4) :
    ∃ s5 off, playAct rand s4 card = some (s5, off) := by
  unfold playAct
  by_cases h1 : card.type = CardType.reverse
  · rw [if_pos h1]
    dsimp only
    by_cases h2 : (s4.players.filter isActive).length = 2
    · rw [if_pos h2]; exact ⟨_, _, rfl⟩
    · rw [if_neg h2]; exact ⟨_, _, rfl⟩
  · rw [if_neg h1]
    by_cases h2 : card.type = CardType.skip
    · rw [if_pos h2]; exact ⟨_, _, rfl⟩
    · rw [if_neg h2, if_neg hd2, if_neg hw4]; exact ⟨_, _, rfl⟩

theorem scoredPlayers_get_id (ps : List Player) (w : Player) (k : Nat) :
    ((scoredPlayers ps w)[k]?).map Player.id = (ps[k]?).map Player.id := by
  rw [scoredPlayers_get]
  rcases hk : ps[k]? with _ | p
  · rfl
  · simp only [Option.map_some']
    rw [scored_id]

theorem scoredPlayers_get_active (ps : List Player) (w : Player) (k : Nat) :
    ((scoredPlayers ps w)[k]?).map isActive = (ps[k]?).map isActive := by
  rw [scoredPlayers_get]
  rcases hk : ps[k]? with _ | p
  · rfl
  · simp only [Option.map_some']
    rw [scored_isActive]

theorem roundWin_scored_i (s5 : GameState) (w : Player) (i : Nat)
    (hwact : isActive w = true) (h5i : s5.players[i]? = some w) :
    (scoredPlayers s5.players w)[i]? = some { w with score := 0 } := by
  rw [scoredPlayers_get, h5i]
  simp only [Option.map_some']
  rw [if_pos hwact]
  simp

theorem roundWin_scored_other (s : GameState) (s5 : GameState) (w : Player) (i : Nat)
    (player : Player) (hp : s.players[i]? = some player)
    (hwid : w.id = player.id)
    (hnod : (s.players.map Player.id).Nodup)
    (j : Nat) (hj : j ≠ i) (p : Player) (hpj : s.players[j]? = some p)
    (h2 : List Card) (h5j : s5.players[j]? = some { p with hand := h2 })
    (hpa : isActive p = true) :
    (scoredPlayers s5.players w)[j]? =
      some { p with hand := h2, score := calculateHandScore h2 } := by
  have hid : ¬(p.id = w.id) := by
    rw [hwid]
    exact nodup_ids_ne s.players hnod j i p player hj hpj hp
  have hact2 : isActive { p with hand := h2 } = true := hpa
  have hid2 : ¬(({ p with hand := h2 } : Player).id = w.id) := hid
  rw [scoredPlayers_get, h5j]
  simp only [Option.map_some']
  rw [if_pos hact2, if_neg hid2]

theorem roundWin_score_clause (s : GameState) (s5 : GameState) (w : Player) (i : Nat)
    (player : Player) (hp : s.players[i]? = some player)
    (hwid : w.id = player.id)
    (hnod : (s.players.map Player.id).Nodup)
    (lg : List String)
    (j : Nat) (p : Player) (hj : j ≠ i) (hpj : s.players[j]? = some p)
    (hpa : isActive p = true)
    (h2 : List Card) (h5j : s5.players[j]? = some { p with hand := h2 }) :
    ∃ q : Player, ((eliminateHighest (scoredPlayers s5.players w) lg).1)[j]? = some q ∧
      q.id = p.id ∧ q.score = calculateHandScore q.hand := by
  have hsc := roundWin_scored_other s s5 w i player hp hwid hnod j hj p hpj h2 h5j hpa
  rcases eliminateHighest_get (scoredPlayers s5.players w) lg j with hc | ⟨p0, hp0, hc⟩
  · refine ⟨{ p with hand := h2, score := calculateHandScore h2 }, ?_, rfl, rfl⟩
    rw [hc]
    exact hsc
  · rw [hsc] at hp0
    injection hp0 with h9
    refine ⟨{ p0 with isEliminated := true }, hc, ?_, ?_⟩
    · rw [← h9]
    · rw [← h9]

theorem roundWin_winner_clause (s5 : GameState) (w : Player) (i : Nat)
    (player : Player) (hw : w = { player with hand := [] })
    (hwact : isActive w = true)
    (h5i : s5.players[i]? = some w) (lg : List String) :
    ∃ q : Player, ((eliminateHighest (scoredPlayers s5.players w) lg).1)[i]? = some q ∧
      q.id = player.id ∧ q.score = 0 ∧ q.hand = [] := by
  have hwid : w.id = player.id := by rw [hw]
  have hsi := roundWin_scored_i s5 w i hwact h5i
  rcases eliminateHighest_get (scoredPlayers s5.players w) lg i with hc | ⟨p0, hp0, hc⟩
  · refine ⟨{ w with score := 0 }, ?_, hwid, rfl, ?_⟩
    · rw [hc]
      exact hsi
    · rw [hw]
  · rw [hsi] at hp0
    injection hp0 with h9
    refine ⟨{ p0 with isEliminated := true }, hc, ?_, ?_, ?_⟩
    · rw [← h9]
      exact hwid
    · rw [← h9]
    · rw [← h9, hw]

theorem roundWin_elim (s : GameState) (s5 : GameState) (w : Player) (i : Nat)
    (player : Player)
    (hp : s.players[i]? = some player)
    (hw : w = { player with hand := [] })
    (hactp : isActive player = true)
    (hnod : (s.players.map Player.id).Nodup)
    (h5i : s5.players[i]? = some w)
    (h5len : s5.players.length = s.players.length)
    (h5other : ∀ j : Nat, j ≠ i → ∀ p : Player, s.players[j]? = some p →
      ∃ h2 : List Card, s5.players[j]? = some { p with hand := h2 })
    (lg : List String)
    (jm : Nat) (pm qm : Player)
    (hpjm : s.players[jm]? = some pm) (hpma : isActive pm = true)
    (hpmid : pm.id ≠ player.id)
    (hqm : ((eliminateHighest (scoredPlayers s5.players w) lg).1)[jm]? = some qm)
    (hqpos : 0 < qm.score)
    (hmax : ∀ (j : Nat) (p q : Player), s.players[j]? = some p → isActive p = true →
      j ≠ jm → ((eliminateHighest (scoredPlayers s5.players w) lg).1)[j]? = some q →
      q.score < qm.score) :
    qm.isEliminated = true := by
  have hwid : w.id = player.id := by rw [hw]
  have hwact : isActive w = true := by rw [hw]; exact hactp
  have hjmne : jm ≠ i := by
    intro he
    rw [he, hp] at hpjm
    injection hpjm with h9
    exact hpmid (by rw [← h9])
  have h5ids : ∀ k : Nat, (s5.players[k]?).map Player.id = (s.players[k]?).map Player.id := by
    intro k
    by_cases hkb : k < s.players.length
    · have hpk : s.players[k]? = some (s.players[k]) := List.getElem?_eq_getElem hkb
      by_cases hki : k = i
      · subst hki
        have h7 : s.players[k] = player := by
          have h6 := hpk.symm.trans hp
          injection h6
        rw [h5i, hpk]
        simp only [Option.map_some']
        rw [hwid, h7]
      · rcases h5other k hki _ hpk with ⟨hk2, h5k⟩
        rw [h5k, hpk]
        simp only [Option.map_some']
    · have h1 : s.players[k]? = none := List.getElem?_eq_none (by omega)
      have h2q : s5.players[k]? = none := List.getElem?_eq_none (by omega)
      rw [h1, h2q]
  have h5act : ∀ k : Nat, (s5.players[k]?).map isActive = (s.players[k]?).map isActive := by
    intro k
    by_cases hkb : k < s.players.length
    · have hpk : s.players[k]? = some (s.players[k]) := List.getElem?_eq_getElem hkb
      by_cases hki : k = i
      · subst hki
        have h7 : s.players[k] = player := by
          have h6 := hpk.symm.trans hp
          injection h6
        have h8 : isActive w = isActive player := by
          rw [hw]
          rfl
        rw [h5i, hpk]
        simp only [Option.map_some']
        rw [h7, h8]
      · rcases h5other k hki _ hpk with ⟨hk2, h5k⟩
        rw [h5k, hpk]
        simp only [Option.map_some']
        rfl
    · have h1 : s.players[k]? = none := List.getElem?_eq_none (by omega)
      have h2q : s5.players[k]? = none := List.getElem?_eq_none (by omega)
      rw [h1, h2q]
  have hscids : ∀ k : Nat, ((scoredPlayers s5.players w)[k]?).map Player.id =
      (s.players[k]?).map Player.id :=
    fun k => (scoredPlayers_get_id s5.players w k).trans (h5ids k)
  have hscact : ∀ k : Nat, ((scoredPlayers s5.players w)[k]?).map isActive =
      (s.players[k]?).map isActive :=
    fun k => (scoredPlayers_get_active s5.players w k).trans (h5act k)
  rcases h5other jm hjmne pm hpjm with ⟨hm2, h5m⟩
  have hsm : (scoredPlayers s5.players w)[jm]? =
      some { pm with hand := hm2, score := calculateHandScore hm2 } :=
    roundWin_scored_other s s5 w i player hp hwid hnod jm hjmne pm hpjm hm2 h5m hpma
  have hqmsc : qm.score = calculateHandScore hm2 := by
    rcases eliminateHighest_get (scoredPlayers s5.players w) lg jm with hc | ⟨p0, hp0, hc⟩
    · rw [hc, hsm] at hqm
      injection hqm with h9
      rw [← h9]
    · rw [hsm] at hp0
      injection hp0 with h9
      rw [hc] at hqm
      injection hqm with h8
      rw [← h8, ← h9]
  have hslen : (scoredPlayers s5.players w).length = s.players.length := by
    rw [scoredPlayers_length, h5len]
  have hMmem : ({ pm with hand := hm2, score := calculateHandScore hm2 } : Player) ∈
      (scoredPlayers s5.players w).filter isActive := by
    apply List.mem_filter.mpr
    refine ⟨?_, ?_⟩
    · rcases List.getElem?_eq_some.mp hsm with ⟨hb, heq⟩
      rw [← heq]
      exact List.getElem_mem hb
    · exact hpma
  rcases hflcase : (scoredPlayers s5.players w).filter isActive with _ | ⟨ph, pl⟩
  · rw [hflcase] at hMmem
    simp at hMmem
  · have hpick : ∃ r, pickHighest ((scoredPlayers s5.players w).filter isActive) = some r := by
      rw [hflcase]
      exact ⟨_, rfl⟩
    rcases hpick with ⟨r, hpr⟩
    rcases pickHighest_spec _ r hpr with ⟨hrm, hrb⟩
    have hMle : calculateHandScore hm2 ≤ r.score := hrb _ hMmem
    have hrmem : r ∈ scoredPlayers s5.players w := (List.mem_filter.mp hrm).1
    have hract : isActive r = true := (List.mem_filter.mp hrm).2
    rcases List.mem_iff_getElem.mp hrmem with ⟨jr, hjrb, hjre⟩
    have hjrb2 : jr < s.players.length := by omega
    have hpjr : s.players[jr]? = some (s.players[jr]) := List.getElem?_eq_getElem hjrb2
    have hscjr : (scoredPlayers s5.players w)[jr]? = some r := by
      rw [List.getElem?_eq_getElem hjrb, hjre]
    by_cases hji : jr = i
    · subst hji
      have hsi : (scoredPlayers s5.players w)[jr]? = some { w with score := 0 } :=
        roundWin_scored_i s5 w jr hwact h5i
      rw [hsi] at hscjr
      injection hscjr with h9
      have hr0 : r.score = 0 := by rw [← h9]
      omega
    · by_cases hjj : jr = jm
      · subst hjj
        have h9 : ({ pm with hand := hm2, score := calculateHandScore hm2 } : Player) = r := by
          have h6 := hsm.symm.trans hscjr
          injection h6
        have hpr2 : pickHighest ((scoredPlayers s5.players w).filter isActive) =
            some { pm with hand := hm2, score := calculateHandScore hm2 } := by
          rw [hpr, ← h9]
        have hfind : (scoredPlayers s5.players w).findIdx?
            (fun p => p.id == ({ pm with hand := hm2, score := calculateHandScore hm2 } : Player).id) = some jr := by
          apply findIdx?_spec _ _ jr _ hsm (by simp)
          intro k q hk hq
          have hkb : k < s.players.length := by
            have := getElem?_bound hq
            omega
          have hpk : s.players[k]? = some (s.players[k]) := List.getElem?_eq_getElem hkb
          have hqid : q.id = (s.players[k]).id := by
            have h6 := hscids k
            rw [hq, hpk] at h6
            simp only [Option.map_some'] at h6
            injection h6
          have hne2 : q.id ≠ pm.id := by
            rw [hqid]
            exact nodup_ids_ne s.players hnod k jr _ pm (by omega) hpk hpjm
          show (q.id == ({ pm with hand := hm2, score := calculateHandScore hm2 } : Player).id) = false
          exact beq_eq_false_iff_ne.mpr hne2
        have hRcalc : ((eliminateHighest (scoredPlayers s5.players w) lg).1)[jr]? =
            some { pm with hand := hm2, score := calculateHandScore hm2, isEliminated := true } := by
          have hMpos : ({ pm with hand := hm2, score := calculateHandScore hm2 } : Player).score > 0 := by
            show calculateHandScore hm2 > 0
            omega
          unfold eliminateHighest
          rw [hpr2]
          dsimp only
          rw [if_pos hMpos]
          rw [hfind]
          exact modifyPlayer_get_self _ _ _ _ hsm
        rw [hRcalc] at hqm
        injection hqm with h8
        rw [← h8]
      · have hpra : isActive (s.players[jr]) = true := by
          have h6 := hscact jr
          rw [hscjr, hpjr] at h6
          simp only [Option.map_some'] at h6
          injection h6 with h7
          rw [← h7]
          exact hract
        rcases eliminateHighest_get (scoredPlayers s5.players w) lg jr
          with hc | ⟨p0, hp0, hc⟩
        · have hq2 : ((eliminateHighest (scoredPlayers s5.players w) lg).1)[jr]? =
              some r := by
            rw [hc]
            exact hscjr
          have := hmax jr (s.players[jr]) r hpjr hpra hjj hq2
          omega
        · have h9 : p0 = r := by
            have h6 := hp0.symm.trans hscjr
            injection h6
          have hthis := hmax jr (s.players[jr]) { p0 with isEliminated := true }
            hpjr hpra hjj hc
          have hsc2 : ({ p0 with isEliminated := true } : Player).score = r.score := by
            rw [h9]
          omega

theorem playCard_empty_win (rand : Nat → Nat) (s : GameState) (pid : String) (cid : Nat)
    (wc : Option CardColor) (i ci : Nat) (player : Player) (card top : Card)
    (s2 : GameState)
    (hf : s.players.findIdx? (fun p => p.id == pid) = some i)
    (hcur : i = s.currentPlayerIndex)
    (hp : s.players[i]? = some player)
    (hcf : player.hand.findIdx? (fun c => c.id == cid) = some ci)
    (hcg : player.hand[ci]? = some card)
    (htop : s.discardPile.getLast? = some top)
    (hval : isValidMove card top s.currentColor = true)
    (hEmpty : (player.hand.eraseIdx ci).length = 0)
    (hdraw : (card.type = CardType.draw2 ∨ card.type = CardType.wild4) →
      getNextPlayerIndex s 1 ≠ some i)
    (hplay : playCard rand s pid cid wc = some s2) :
    ∃ s5 : GameState,
      s2 = handleRoundWin s5 { player with hand := [] } ∧
      s5.mode = s.mode ∧
      s5.players[i]? = some { player with hand := [] } ∧
      s5.players.length = s.players.length ∧
      (∀ j : Nat, j ≠ i → ∀ p : Player, s.players[j]? = some p →
        ∃ h2 : List Card, s5.players[j]? = some { p with hand := h2 }) := by
  rw [playCard_valid rand s pid cid wc i ci player card top hf hcur hp hcf hcg
    htop hval] at hplay
  unfold playCardGo at hplay
  have hErase0 : player.hand.eraseIdx ci = [] := List.length_eq_zero.mp hEmpty
  have hpen : playPenalty rand (playRemove s i player ci card) i player
      (player.hand.eraseIdx ci) = playRemove s i player ci card := by
    have hcc : ¬((player.hand.eraseIdx ci).length = 1 ∧ player.hasCalledUno = false) := by
      rw [hErase0]
      simp
    unfold playPenalty
    rw [if_neg hcc]
  set sR := playRemove s i player ci card with hsR
  have hRi : sR.players[i]? = some { player with hand := [] } := by
    have h1 := playRemove_hand s i player ci card hp
    rw [hErase0] at h1
    exact h1
  have huno : playUnoReset sR i = sR := by
    have hgt : ¬((handAt sR i).length > 1) := by
      rw [handAt_eq sR i _ hRi]
      simp
    unfold playUnoReset
    rw [if_neg hgt]
  rw [hpen, huno] at hplay
  set s4 : GameState := { sR with currentColor := playColor card wc } with hs4
  have h4i : s4.players[i]? = some { player with hand := [] } := hRi
  have h4len : s4.players.length = s.players.length := by
    show sR.players.length = s.players.length
    rw [hsR]
    unfold playRemove
    dsimp only
    simp
  have h4other : ∀ j : Nat, j ≠ i → ∀ p : Player, s.players[j]? = some p →
      s4.players[j]? = some p := by
    intro j hj p hpj
    show sR.players[j]? = some p
    rw [hsR]
    unfold playRemove
    dsimp only
    rw [List.getElem?_set_ne (fun h => hj h.symm)]
    exact hpj
  by_cases hdw : card.type = CardType.draw2 ∨ card.type = CardType.wild4
  · have hgeq : getNextPlayerIndex s4 1 = getNextPlayerIndex s 1 := by
      unfold getNextPlayerIndex
      have hfe : nextFuel s4.players = nextFuel s.players := by
        unfold nextFuel
        rw [h4len]
      have hsa : sameActive s4.players s.players :=
        playRemove_sameActive s i player ci card hp
      have hd : s4.direction = s.direction := rfl
      have hc2 : s4.currentPlayerIndex = s.currentPlayerIndex := rfl
      rw [hfe, hd, hc2]
      exact nextLoop_congr s4.players s.players s.direction 1 h4len
        (fun j => sameActive_activeAt hsa j) (nextFuel s.players) 0 s.currentPlayerIndex
    rcases hgn : getNextPlayerIndex s 1 with _ | nextP
    · exfalso
      rcases hdw with h2 | h2 <;> simp [playAct, h2, hgeq, hgn] at hplay
    · have hne : nextP ≠ i := by
        intro he
        exact hdraw hdw (by rw [hgn, he])
      obtain ⟨k, hact⟩ : ∃ k : Nat,
          playAct rand s4 card = some (drawCards rand s4 nextP k, 2) := by
        rcases hdw with h2 | h2
        · exact ⟨2, by simp [playAct, h2, hgeq, hgn]⟩
        · exact ⟨4, by simp [playAct, h2, hgeq, hgn]⟩
      have h5i : (drawCards rand s4 nextP k).players[i]? =
          some { player with hand := [] } := by
        rw [drawCards_get_ne rand s4 nextP k i (fun h => hne h.symm)]
        exact h4i
      have h5len : (drawCards rand s4 nextP k).players.length = s.players.length := by
        rw [drawCards_players_length]
        exact h4len
      have h5other : ∀ j : Nat, j ≠ i → ∀ p : Player, s.players[j]? = some p →
          ∃ h2x : List Card, (drawCards rand s4 nextP k).players[j]? =
            some { p with hand := h2x } := by
        intro j hj p hpj
        by_cases hjn : j = nextP
        · subst hjn
          rcases drawCards_get_self rand s4 j k p (h4other j hj p hpj) with ⟨extra, he⟩
          exact ⟨p.hand ++ extra, by rw [he]⟩
        · refine ⟨p.hand, ?_⟩
          rw [drawCards_get_ne rand s4 nextP k j hjn, h4other j hj p hpj]
      rw [hact] at hplay
      simp only [] at hplay
      have hh : (handAt (drawCards rand s4 nextP k) i).length = 0 := by
        rw [handAt_eq _ i _ h5i]
        rfl
      rw [if_pos hh, h5i] at hplay
      simp only [] at hplay
      injection hplay with h9
      exact ⟨drawCards rand s4 nextP k, h9.symm, rfl, h5i, h5len, h5other⟩
  · push_neg at hdw
    rcases playAct_some rand s4 card hdw.1 hdw.2 with ⟨s5, off, hact⟩
    have hkeep : s5.players = s4.players := playAct_keep rand s4 card s5 off hdw hact
    have h5i : s5.players[i]? = some { player with hand := [] } := by
      rw [hkeep]
      exact h4i
    have h5len : s5.players.length = s.players.length := by
      rw [hkeep]
      exact h4len
    have h5other : ∀ j : Nat, j ≠ i → ∀ p : Player, s.players[j]? = some p →
        ∃ h2x : List Card, s5.players[j]? = some { p with hand := h2x } := by
      intro j hj p hpj
      refine ⟨p.hand, ?_⟩
      rw [hkeep, h4other j hj p hpj]
    have hmode : s5.mode = s.mode := by
      rw [(playAct_parts rand s4 card s5 off hact).2.2.2.2.2.1]
      rfl
    rw [hact] at hplay
    simp only [] at hplay
    have hh : (handAt s5 i).length = 0 := by
      rw [handAt_eq _ i _ h5i]
      rfl
    rw [if_pos hh, h5i] at hplay
    simp only [] at hplay
    injection hplay with h9
    exact ⟨s5, h9.symm, hmode, h5i, h5len, h5other⟩

/-- C4: a validated `playCard` that empties the acting player's hand
resolves the round.  In QUICK mode the game ends at once with that
player as winner.  In TOURNAMENT mode (with distinct player ids)
every non-winning active player's score becomes the hand score of
their remaining hand and the winner's score becomes 0; any active
non-winner holding the unique strictly highest positive score ends
up eliminated; and the resulting status is GAME_OVER with the single
surviving active player as winner when exactly one active player
remains, ROUND_OVER otherwise. -/
theorem claim_C4 :
    (∀ (rand : Nat → Nat) (s : GameState) (pid : String) (cid : Nat)
        (wc : Option CardColor) (i ci : Nat) (player : Player) (card top : Card)
        (s2 : GameState),
        s.players.findIdx? (fun p => p.id == pid) = some i →
        i = s.currentPlayerIndex →
        s.players[i]? = some player →
        player.hand.findIdx? (fun c => c.id == cid) = some ci →
        player.hand[ci]? = some card →
        s.discardPile.getLast? = some top →
        isValidMove card top s.currentColor = true →
        (player.hand.eraseIdx ci).length = 0 →
        ((card.type = CardType.draw2 ∨ card.type = CardType.wild4) →
          getNextPlayerIndex s 1 ≠ some i) →
        s.mode = GameMode.QUICK →
        playCard rand s pid cid wc = some s2 →
        s2.status = GameStatus.GAME_OVER ∧
        (∃ w : Player, s2.winner = some w ∧ w.id = player.id ∧ w.hand = [])) ∧
    (∀ (rand : Nat → Nat) (s : GameState) (pid : String) (cid : Nat)
        (wc : Option CardColor) (i ci : Nat) (player : Player) (card top : Card)
        (s2 : GameState),
        s.players.findIdx? (fun p => p.id == pid) = some i →
        i = s.currentPlayerIndex →
        s.players[i]? = some player →
        player.hand.findIdx? (fun c => c.id == cid) = some ci →
        player.hand[ci]? = some card →
        s.discardPile.getLast? = some top →
        isValidMove card top s.currentColor = true →
        isActive player = true →
        (s.players.map Player.id).Nodup →
        (player.hand.eraseIdx ci).length = 0 →
        ((card.type = CardType.draw2 ∨ card.type = CardType.wild4) →
          getNextPlayerIndex s 1 ≠ some i) →
        s.mode = GameMode.TOURNAMENT →
        playCard rand s pid cid wc = some s2 →
        (∀ (j : Nat) (p : Player), s.players[j]? = some p → isActive p = true →
          p.id ≠ player.id →
          ∃ q : Player, s2.players[j]? = some q ∧ q.id = p.id ∧
            q.score = calculateHandScore q.hand) ∧
        (∃ q : Player, s2.players[i]? = some q ∧ q.id = player.id ∧
          q.score = 0 ∧ q.hand = []) ∧
        (∀ (jm : Nat) (pm qm : Player),
          s.players[jm]? = some pm → isActive pm = true → pm.id ≠ player.id →
          s2.players[jm]? = some qm → 0 < qm.score →
          (∀ (j : Nat) (p q : Player), s.players[j]? = some p → isActive p = true →
            j ≠ jm → s2.players[j]? = some q → q.score < qm.score) →
          qm.isEliminated = true) ∧
        ((s2.players.filter isActive).length = 1 →
          s2.status = GameStatus.GAME_OVER ∧
          ∃ w2 : Player, s2.winner = some w2 ∧ s2.players.filter isActive = [w2]) ∧
        ((s2.players.filter isActive).length ≠ 1 →
          s2.status = GameStatus.ROUND_OVER)) := by
  constructor
  · intro rand s pid cid wc i ci player card top s2 hf hcur hp hcf hcg htop hval
      hEmpty hdraw hmode hplay
    rcases playCard_empty_win rand s pid cid wc i ci player card top s2 hf hcur hp
      hcf hcg htop hval hEmpty hdraw hplay with ⟨s5, hs2, hm5, h5i, h5len, h5other⟩
    have hq : s5.mode = GameMode.QUICK := by rw [hm5, hmode]
    rw [hs2]
    unfold handleRoundWin
    rw [if_pos hq]
    exact ⟨rfl, ⟨{ player with hand := [] }, rfl, rfl, rfl⟩⟩
  · intro rand s pid cid wc i ci player card top s2 hf hcur hp hcf hcg htop hval
      hactp hnod hEmpty hdraw hmode hplay
    rcases playCard_empty_win rand s pid cid wc i ci player card top s2 hf hcur hp
      hcf hcg htop hval hEmpty hdraw hplay with ⟨s5, hs2, hm5, h5i, h5len, h5other⟩
    have ht : ¬(s5.mode = GameMode.QUICK) := by
      rw [hm5, hmode]
      exact fun h => GameMode.noConfusion h
    set w : Player := { player with hand := [] } with hwdef
    have hwact : isActive w = true := hactp
    have hwid : w.id = player.id := rfl
    set R := (roundWinPlayers s5 w).1 with hRdef
    have hsplit : s2.players = R ∧
        ((R.filter isActive).length = 1 → s2.status = GameStatus.GAME_OVER ∧
          ∃ w2 : Player, s2.winner = some w2 ∧ R.filter isActive = [w2]) ∧
        ((R.filter isActive).length ≠ 1 → s2.status = GameStatus.ROUND_OVER) := by
      rw [hs2]
      unfold handleRoundWin
      rw [if_neg ht]
      rcases hfil : R.filter isActive with _ | ⟨q1, _ | ⟨q2, rest⟩⟩
      · refine ⟨rfl, ?_, ?_⟩
        · intro h1
          simp at h1
        · intro h1
          rfl
      · refine ⟨rfl, ?_, ?_⟩
        · intro h1
          exact ⟨rfl, ⟨q1, rfl, rfl⟩⟩
        · intro h1
          exfalso
          simp at h1
      · refine ⟨rfl, ?_, ?_⟩
        · intro h1
          exfalso
          simp at h1
        · intro h1
          rfl
    obtain ⟨hspl, hgo, hro⟩ := hsplit
    refine ⟨?_, ?_, ?_, ?_, ?_⟩
    · intro j p hpj hpa hpid
      have hjne : j ≠ i := by
        intro he
        rw [he, hp] at hpj
        injection hpj with h9
        exact hpid (by rw [← h9])
      rcases h5other j hjne p hpj with ⟨h2x, h5j⟩
      rcases roundWin_score_clause s s5 w i player hp hwid hnod
        (s5.log ++ [w.name ++ " won the round!"]) j p hjne hpj hpa h2x h5j
        with ⟨q, hq1, hq2, hq3⟩
      refine ⟨q, ?_, hq2, hq3⟩
      rw [hspl]
      exact hq1
    · rcases roundWin_winner_clause s5 w i player hwdef hwact h5i
        (s5.log ++ [w.name ++ " won the round!"]) with ⟨q, hq1, hq2, hq3, hq4⟩
      refine ⟨q, ?_, hq2, hq3, hq4⟩
      rw [hspl]
      exact hq1
    · intro jm pm qm hpjm hpma hpmid hqm hqpos hmax
      rw [hspl] at hqm
      apply roundWin_elim s s5 w i player hp hwdef hactp hnod h5i h5len h5other
        (s5.log ++ [w.name ++ " won the round!"]) jm pm qm hpjm hpma hpmid hqm hqpos
      intro j p q hpj hpa hjne hq
      exact hmax j p q hpj hpa hjne (by rw [hspl]; exact hq)
    · intro h1
      rw [hspl] at h1
      rcases hgo h1 with ⟨hst, w2, hw2, hfil2⟩
      refine ⟨hst, w2, hw2, ?_⟩
      rw [hspl]
      exact hfil2
    · intro h1
      rw [hspl] at h1
      exact hro h1

set_option maxRecDepth 200000 in
/-- C4 witness: `A` plays their last card in `exQuickWin` (QUICK:
immediate GAME_OVER with `A` as winner) and in `exPlayWin`
(TOURNAMENT: the round ends in ROUND_OVER since two active players
survive the elimination). -/
theorem claim_C4_witness :
    (exQuickAfter.status = GameStatus.GAME_OVER ∧
      (∃ w : Player, exQuickAfter.winner = some w ∧
        w.id = (mkPlayer "A" (unshuffledDeck.take 1) false false true).id ∧
        w.hand = [])) ∧
    exRoundOver.status = GameStatus.ROUND_OVER := by
  constructor
  · exact claim_C4.1 (fun _ => 0) exQuickWin "A" 0 none 0 0
      (mkPlayer "A" (unshuffledDeck.take 1) false false true)
      (unshuffledDeck.getD 0 revCard) (unshuffledDeck.getD 6 revCard) exQuickAfter
      (by decide) (by decide) (by decide) (by decide) (by decide) (by decide)
      (by decide) (by decide) (by decide) (by decide) (by decide)
  · exact (claim_C4.2 (fun _ => 0) exPlayWin "A" 0 none 0 0
      (mkPlayer "A" (unshuffledDeck.take 1) false false true)
      (unshuffledDeck.getD 0 revCard) (unshuffledDeck.getD 6 revCard) exRoundOver
      (by decide) (by decide) (by decide) (by decide) (by decide) (by decide)
      (by decide) (by decide) (by decide) (by decide) (by decide) (by decide)
      (by decide)).2.2.2.2 (by decide)

/-- C7: a validated reverse play by an active player who keeps at
least one card: with exactly 2 active players the turn comes back to
the same seat and the direction is untouched (the reverse acts as a
skip); with any other number of active players the direction is
flipped and the turn advances to the first active seat of the walk
in the flipped direction. -/
theorem claim_C7 :
    (∀ (rand : Nat → Nat) (s : GameState) (pid : String) (cid : Nat)
        (wc : Option CardColor) (i ci : Nat) (player : Player) (card top : Card)
        (s2 : GameState),
        s.players.findIdx? (fun p => p.id == pid) = some i →
        i = s.currentPlayerIndex →
        s.players[i]? = some player →
        player.hand.findIdx? (fun c => c.id == cid) = some ci →
        player.hand[ci]? = some card →
        s.discardPile.getLast? = some top →
        isValidMove card top s.currentColor = true →
        card.type = CardType.reverse →
        isActive player = true →
        (player.hand.eraseIdx ci).length ≠ 0 →
        (s.direction = 1 ∨ s.direction = -1) →
        (s.players.filter isActive).length = 2 →
        playCard rand s pid cid wc = some s2 →
        s2.direction = s.direction ∧ s2.currentPlayerIndex = s.currentPlayerIndex) ∧
    (∀ (rand : Nat → Nat) (s : GameState) (pid : String) (cid : Nat)
        (wc : Option CardColor) (i ci : Nat) (player : Player) (card top : Card)
        (s2 : GameState),
        s.players.findIdx? (fun p => p.id == pid) = some i →
        i = s.currentPlayerIndex →
        s.players[i]? = some player →
        player.hand.findIdx? (fun c => c.id == cid) = some ci →
        player.hand[ci]? = some card →
        s.discardPile.getLast? = some top →
        isValidMove card top s.currentColor = true →
        card.type = CardType.reverse →
        isActive player = true →
        (player.hand.eraseIdx ci).length ≠ 0 →
        (s.direction = 1 ∨ s.direction = -1) →
        (s.players.filter isActive).length ≠ 2 →
        playCard rand s pid cid wc = some s2 →
        s2.direction = s.direction * (-1) ∧
        (activeWalk s.players (s.direction * (-1)) s.currentPlayerIndex
          (nextFuel s.players))[0]? = some s2.currentPlayerIndex) := by
  have main : ∀ (rand : Nat → Nat) (s : GameState) (pid : String) (cid : Nat)
      (wc : Option CardColor) (i ci : Nat) (player : Player) (card top : Card)
      (s2 : GameState),
      s.players.findIdx? (fun p => p.id == pid) = some i →
      i = s.currentPlayerIndex →
      s.players[i]? = some player →
      player.hand.findIdx? (fun c => c.id == cid) = some ci →
      player.hand[ci]? = some card →
      s.discardPile.getLast? = some top →
      isValidMove card top s.currentColor = true →
      card.type = CardType.reverse →
      isActive player = true →
      (player.hand.eraseIdx ci).length ≠ 0 →
      (s.direction = 1 ∨ s.direction = -1) →
      playCard rand s pid cid wc = some s2 →
      ((s.players.filter isActive).length = 2 →
        s2.direction = s.direction ∧ s2.currentPlayerIndex = s.currentPlayerIndex) ∧
      ((s.players.filter isActive).length ≠ 2 →
        s2.direction = s.direction * (-1) ∧
        (activeWalk s.players (s.direction * (-1)) s.currentPlayerIndex
          (nextFuel s.players))[0]? = some s2.currentPlayerIndex) := by
    intro rand s pid cid wc i ci player card top s2 hf hcur hp hcf hcg htop hval hrev
      hactp hne hdir h
    rw [playCard_valid rand s pid cid wc i ci player card top hf hcur hp hcf hcg
      htop hval] at h
    unfold playCardGo at h
    set sR := playRemove s i player ci card with hsR
    set sPen := playPenalty rand sR i player (player.hand.eraseIdx ci) with hsPen
    set sU := playUnoReset sPen i with hsU
    set s4 : GameState := { sU with currentColor := playColor card wc } with hs4
    have hsame4 : sameActive s4.players s.players :=
      sameActive_trans (playUnoReset_sameActive sPen i)
        (sameActive_trans
          (playPenalty_sameActive rand sR i player (player.hand.eraseIdx ci))
          (playRemove_sameActive s i player ci card hp))
    have hdir4 : s4.direction = s.direction :=
      calc s4.direction = sPen.direction := (playUnoReset_parts sPen i).2.2.2.2.2.2.1
      _ = sR.direction := (playPenalty_parts rand sR i player _).1
      _ = s.direction := rfl
    have hcur4 : s4.currentPlayerIndex = s.currentPlayerIndex :=
      calc s4.currentPlayerIndex = sPen.currentPlayerIndex :=
        (playUnoReset_parts sPen i).2.2.2.2.2.1
      _ = sR.currentPlayerIndex := (playPenalty_parts rand sR i player _).2
      _ = s.currentPlayerIndex := rfl
    have hhand4 : ∃ extra : List Card,
        handAt s4 i = (player.hand.eraseIdx ci) ++ extra := by
      rcases playPenalty_handAt rand sR i player (player.hand.eraseIdx ci) i
        with ⟨ex, hex⟩
      refine ⟨ex, ?_⟩
      have h1 : handAt s4 i = handAt sPen i := playUnoReset_handAt sPen i i
      rw [h1, hex, handAt_eq sR i _ (playRemove_hand s i player ci card hp)]
    have hne4 : ¬((handAt s4 i).length = 0) := by
      rcases hhand4 with ⟨ex, hex⟩
      rw [hex, List.length_append]
      omega
    have hia4 : activeAt s4.players s4.currentPlayerIndex = true := by
      rw [hcur4, sameActive_activeAt hsame4, ← hcur]
      unfold activeAt
      rw [hp]
      exact hactp
    constructor
    · intro h2
      have hcnt : (s4.players.filter isActive).length = 2 := by
        rw [sameActive_filter_length _ _ hsame4]
        exact h2
      have hact : playAct rand s4 card = some (s4, 2) := by
        unfold playAct
        rw [if_pos hrev]
        dsimp only
        rw [if_pos hcnt]
      rw [hact] at h
      simp only [] at h
      rw [if_neg hne4] at h
      have hadv := advanceTurn_parts s4 s2 2 h
      have hgn : getNextPlayerIndex s4 2 = some s4.currentPlayerIndex :=
        twoActive_getNext s4 (by rw [hdir4]; exact hdir) hia4 hcnt
      have hinj := hadv.2.2.2.2.2.2.2
      rw [hgn] at hinj
      injection hinj with h9
      refine ⟨by rw [hadv.2.2.2.2.2.2.1, hdir4], ?_⟩
      rw [← h9, hcur4]
    · intro h2
      have hcnt : ¬((s4.players.filter isActive).length = 2) := by
        rw [sameActive_filter_length _ _ hsame4]
        exact h2
      have hact : playAct rand s4 card =
          some ({ s4 with direction := s4.direction * (-1) }, 1) := by
        unfold playAct
        rw [if_pos hrev]
        dsimp only
        rw [if_neg hcnt]
      rw [hact] at h
      simp only [] at h
      have hne5 : ¬((handAt { s4 with direction := s4.direction * (-1) } i).length = 0) :=
        hne4
      rw [if_neg hne5] at h
      have hadv := advanceTurn_parts _ s2 1 h
      have hplen : 0 < s.players.length := by
        have := getElem?_bound hp
        omega
      have hdirb : s2.direction = s.direction * (-1) := by
        rw [hadv.2.2.2.2.2.2.1]
        show s4.direction * (-1) = s.direction * (-1)
        rw [hdir4]
      refine ⟨hdirb, ?_⟩
      have hgn := hadv.2.2.2.2.2.2.2
      rw [getNextPlayerIndex_spec _ 1 (by omega)
        (by show 1 ≤ s4.players.length * 2; rw [hsame4.1]; omega)] at hgn
      have hgn2 : (activeWalk s4.players (s4.direction * (-1)) s4.currentPlayerIndex
          (nextFuel s4.players))[1 - 1]? = some s2.currentPlayerIndex := hgn
      have hAWc : activeWalk s4.players (s4.direction * (-1)) s4.currentPlayerIndex
          (nextFuel s4.players) =
          activeWalk s.players (s.direction * (-1)) s.currentPlayerIndex
            (nextFuel s.players) := by
        rw [hdir4, hcur4,
          show nextFuel s4.players = nextFuel s.players from by
            unfold nextFuel; rw [hsame4.1]]
        exact activeWalk_congr _ _ hsame4 _ _ _
      rw [hAWc] at hgn2
      exact hgn2
  constructor
  · intro rand s pid cid wc i ci player card top s2 hf hcur hp hcf hcg htop hval hrev
      hactp hne hdir h2 h
    exact (main rand s pid cid wc i ci player card top s2 hf hcur hp hcf hcg htop hval
      hrev hactp hne hdir h).1 h2
  · intro rand s pid cid wc i ci player card top s2 hf hcur hp hcf hcg htop hval hrev
      hactp hne hdir h2 h
    exact (main rand s pid cid wc i ci player card top s2 hf hcur hp hcf hcg htop hval
      hrev hactp hne hdir h).2 h2

/-- C7 witness: the 2-player shortcut on `exRev2` (turn returns to
`A`, direction kept) and the ordinary flip on the 3-player `exRev3`
(direction negated, turn walks one active seat in the new
direction). -/
theorem claim_C7_witness :
    (exRev2After.direction = exRev2.direction ∧
      exRev2After.currentPlayerIndex = exRev2.currentPlayerIndex) ∧
    (exRev3After.direction = exRev3.direction * (-1) ∧
      (activeWalk exRev3.players (exRev3.direction * (-1)) exRev3.currentPlayerIndex
        (nextFuel exRev3.players))[0]? = some exRev3After.currentPlayerIndex) :=
  ⟨claim_C7.1 (fun _ => 0) exRev2 "A" 100 none 0 0
      (mkPlayer "A" [revCard, numCard 101] false false false) revCard (numCard 105)
      exRev2After (by decide) (by decide) (by decide) (by decide) (by decide)
      (by decide) (by decide) (by decide) (by decide) (by decide) (by decide)
      (by decide) (by decide),
   claim_C7.2 (fun _ => 0) exRev3 "A" 100 none 0 0
      (mkPlayer "A" [revCard, numCard 101] false false false) revCard (numCard 105)
      exRev3After (by decide) (by decide) (by decide) (by decide) (by decide)
      (by decide) (by decide) (by decide) (by decide) (by decide) (by decide)
      (by decide) (by decide)⟩

/-- C3: a successful `playCard` that leaves the acting player holding
exactly one card while their `hasCalledUno` is false takes the
penalty path: the same call logs exactly the penalty message and
applies the forced draw, and the empty-hand round-win check runs
only after that penalty, so such a play never triggers round
resolution — `status` and `winner` are unchanged.  When a card is
available on the deck (and the played card is not itself a draw card
aimed back at the actor), the forced draw leaves the actor with
exactly 2 cards. -/
theorem claim_C3 :
    (∀ (rand : Nat → Nat) (s : GameState) (pid : String) (cid : Nat)
        (wc : Option CardColor) (i ci : Nat) (player : Player) (card top : Card)
        (s2 : GameState),
        s.players.findIdx? (fun p => p.id == pid) = some i →
        i = s.currentPlayerIndex →
        s.players[i]? = some player →
        player.hand.findIdx? (fun c => c.id == cid) = some ci →
        player.hand[ci]? = some card →
        s.discardPile.getLast? = some top →
        isValidMove card top s.currentColor = true →
        (player.hand.eraseIdx ci).length = 1 →
        player.hasCalledUno = false →
        playCard rand s pid cid wc = some s2 →
        s2.status = s.status ∧ s2.winner = s.winner ∧
          s2.log = s.log ++ [player.name ++ " forgot UNO! +1 Card Penalty."]) ∧
    (∀ (rand : Nat → Nat) (s : GameState) (pid : String) (cid : Nat)
        (wc : Option CardColor) (i ci : Nat) (player : Player) (card top : Card)
        (s2 : GameState),
        s.players.findIdx? (fun p => p.id == pid) = some i →
        i = s.currentPlayerIndex →
        s.players[i]? = some player →
        player.hand.findIdx? (fun c => c.id == cid) = some ci →
        player.hand[ci]? = some card →
        s.discardPile.getLast? = some top →
        isValidMove card top s.currentColor = true →
        (player.hand.eraseIdx ci).length = 1 →
        player.hasCalledUno = false →
        s.deck ≠ [] →
        card.type ≠ CardType.draw2 → card.type ≠ CardType.wild4 →
        playCard rand s pid cid wc = some s2 →
        (handAt s2 i).length = 2) := by
  have main : ∀ (rand : Nat → Nat) (s : GameState) (pid : String) (cid : Nat)
      (wc : Option CardColor) (i ci : Nat) (player : Player) (card top : Card)
      (s2 : GameState),
      s.players.findIdx? (fun p => p.id == pid) = some i →
      i = s.currentPlayerIndex →
      s.players[i]? = some player →
      player.hand.findIdx? (fun c => c.id == cid) = some ci →
      player.hand[ci]? = some card →
      s.discardPile.getLast? = some top →
      isValidMove card top s.currentColor = true →
      (player.hand.eraseIdx ci).length = 1 →
      player.hasCalledUno = false →
      playCard rand s pid cid wc = some s2 →
      (s2.status = s.status ∧ s2.winner = s.winner ∧
        s2.log = s.log ++ [player.name ++ " forgot UNO! +1 Card Penalty."]) ∧
      (s.deck ≠ [] → card.type ≠ CardType.draw2 → card.type ≠ CardType.wild4 →
        (handAt s2 i).length = 2) := by
    intro rand s pid cid wc i ci player card top s2 hf hcur hp hcf hcg htop hval
      hone huno h
    rw [playCard_valid rand s pid cid wc i ci player card top hf hcur hp hcf hcg
      htop hval] at h
    unfold playCardGo at h
    rw [playPenalty, if_pos ⟨hone, huno⟩] at h
    have hpR : (playRemove s i player ci card).players[i]? =
        some { player with hand := player.hand.eraseIdx ci } :=
      playRemove_hand s i player ci card hp
    set sR := playRemove s i player ci card with hsR
    set sL : GameState :=
      { sR with log := sR.log ++ [player.name ++ " forgot UNO! +1 Card Penalty."] }
      with hsL
    set sP := drawCards rand sL i 1 with hsP
    have hpL : sL.players[i]? = some { player with hand := player.hand.eraseIdx ci } :=
      hpR
    have hPdraw : ∃ extra : List Card,
        handAt sP i = (player.hand.eraseIdx ci) ++ extra := by
      rcases drawCards_handAt rand sL i 1 i with ⟨extra, he⟩
      refine ⟨extra, ?_⟩
      rw [he, handAt_eq sL i _ hpL]
    set sU := playUnoReset sP i with hsU
    have hUparts := playUnoReset_parts sP i
    rw [← hsU] at hUparts
    set s4 : GameState := { sU with currentColor := playColor card wc } with hs4
    have h4hand : ∀ j : Nat, handAt s4 j = handAt sP j := by
      intro j
      have h1 : handAt s4 j = handAt sU j := rfl
      rw [h1, hsU, playUnoReset_handAt]
    rcases hact : playAct rand s4 card with _ | ⟨s5, off⟩
    · rw [hact] at h
      simp at h
    · rw [hact] at h
      simp only [] at h
      have hparts := playAct_parts rand s4 card s5 off hact
      rcases hparts.2.2.2.2.2.2 i with ⟨extra2, hh5⟩
      rcases hPdraw with ⟨extra1, hh1⟩
      have hlen5 : (handAt s5 i).length =
          1 + extra1.length + extra2.length := by
        rw [hh5, h4hand i, hh1]
        simp
        omega
      have hne0 : ¬((handAt s5 i).length = 0) := by omega
      rw [if_neg hne0] at h
      have hadv := advanceTurn_parts s5 s2 off h
      constructor
      · refine ⟨?_, ?_, ?_⟩
        · rw [hadv.2.1, hparts.1]
          exact hUparts.1
        · rw [hadv.2.2.1, hparts.2.1]
          exact hUparts.2.1
        · rw [hadv.2.2.2.1, hparts.2.2.1]
          exact hUparts.2.2.1
      · intro hdeck hd2 hw4
        have hdlast : ∃ c, sL.deck.getLast? = some c := by
          have : sL.deck = s.deck := rfl
          rw [this]
          rcases hdk : s.deck.getLast? with _ | c
          · rw [List.getLast?_eq_none_iff] at hdk
            exact absurd hdk hdeck
          · exact ⟨c, rfl⟩
        rcases hdlast with ⟨c, hc⟩
        have hone2 : sP.players[i]? =
            some { player with hand := (player.hand.eraseIdx ci) ++ [c] } := by
          rw [hsP]
          have := drawCards_one rand sL i c _ hc hpL
          exact this
        have hkeep := playAct_keep rand s4 card s5 off ⟨hd2, hw4⟩ hact
        have hhand2 : handAt s2 i = (player.hand.eraseIdx ci) ++ [c] := by
          have e1 : handAt s2 i = handAt s5 i := by
            unfold handAt
            rw [hadv.1]
          have e2 : handAt s5 i = handAt s4 i := by
            unfold handAt
            rw [hkeep]
          rw [e1, e2, h4hand i, handAt_eq sP i _ hone2]
        rw [hhand2]
        simp
        omega
  constructor
  · intro rand s pid cid wc i ci player card top s2 hf hcur hp hcf hcg htop hval
      hone huno h
    exact (main rand s pid cid wc i ci player card top s2 hf hcur hp hcf hcg htop
      hval hone huno h).1
  · intro rand s pid cid wc i ci player card top s2 hf hcur hp hcf hcg htop hval
      hone huno hdeck hd2 hw4 h
    exact (main rand s pid cid wc i ci player card top s2 hf hcur hp hcf hcg htop
      hval hone huno h).2 hdeck hd2 hw4

/-- C3 witness: the penalty scenario evaluated on `exPenalty` —
`A` plays down to one card without calling Uno, receives exactly the
penalty log line and a forced draw back to 2 cards, and the round
does not resolve. -/
theorem claim_C3_witness :
    playCard (fun _ => 0) exPenalty "A" 0 none = some exPenaltyDone ∧
    exPenaltyDone.status = exPenalty.status ∧
    exPenaltyDone.winner = exPenalty.winner ∧
    exPenaltyDone.log = exPenalty.log ++ ["A forgot UNO! +1 Card Penalty."] ∧
    (handAt exPenaltyDone 0).length = 2 := by
  have h1 := claim_C3.1 (fun _ => 0) exPenalty "A" 0 none 0 0
    (mkPlayer "A" (unshuffledDeck.take 2) false false false)
    { id := 0, color := CardColor.red, type := CardType.number, value := some 0 }
    { id := 2, color := CardColor.red, type := CardType.number, value := some 1 }
    exPenaltyDone (by decide) (by decide) (by decide) (by decide) (by decide)
    (by decide) (by decide) (by decide) (by decide) (by decide)
  have h2 := claim_C3.2 (fun _ => 0) exPenalty "A" 0 none 0 0
    (mkPlayer "A" (unshuffledDeck.take 2) false false false)
    { id := 0, color := CardColor.red, type := CardType.number, value := some 0 }
    { id := 2, color := CardColor.red, type := CardType.number, value := some 1 }
    exPenaltyDone (by decide) (by decide) (by decide) (by decide) (by decide)
    (by decide) (by decide) (by decide) (by decide) (by decide) (by decide)
    (by decide) (by decide)
  exact ⟨by decide, h1.1, h1.2.1, h1.2.2, h2⟩

theorem claim_C8 :
    (∀ (rand : Nat → Nat) (s : GameState), s.status = GameStatus.GAME_OVER →
        nextRound rand s = some s) ∧
    (∀ (rand : Nat → Nat) (s s2 : GameState),
        s.status ≠ GameStatus.GAME_OVER →
        s.players.length ≤ 15 →
        (s.players.map Player.id).Nodup →
        nextRound rand s = some s2 →
        s2.status = GameStatus.PLAYING →
        (∃ c : Card, s2.discardPile = [c] ∧ c.color ≠ CardColor.black ∧
          s2.currentColor = c.color) ∧
        (∀ (j : Nat) (p : Player), s.players[j]? = some p → isActive p = true →
          ∃ q : Player, s2.players[j]? = some q ∧ q.id = p.id ∧
            q.hand.length = 7 ∧ q.hasCalledUno = false ∧ q.score = 0) ∧
        (∀ (j : Nat) (p : Player), s.players[j]? = some p → isActive p = false →
          s2.players[j]? = some p) ∧
        (∃ j0 : Nat, s.players.findIdx? (fun p => isActive p) = some j0 ∧
          s2.currentPlayerIndex = j0)) := by
  constructor
  · intro rand s hg
    unfold nextRound
    rw [if_pos hg]
  · intro rand s s2 hg hlen hnod h hst
    unfold nextRound at h
    rw [if_neg hg] at h
    simp only [] at h
    rcases hfa : s.players.filter isActive with _ | ⟨a, rest⟩
    · rw [hfa] at h
      simp at h
      rw [← h] at hst
      simp at hst
    · rcases rest with _ | ⟨b, rest2⟩
      · rw [hfa] at h
        simp at h
        rw [← h] at hst
        simp at hst
      · rw [hfa] at h
        simp only [] at h
        rcases hfl : flipFirst (dealToActives s.players (generateDeck rand)).2
            with _ | ⟨c, deck2⟩
        · rw [hfl] at h
          simp at h
        · rw [hfl] at h
          simp at h
          have hflspec := flipFirst_spec _ c deck2 hfl
          rcases filter_head_first s.players isActive a (b :: rest2) hfa
            with ⟨j0, hj0, hact0, hfirst⟩
          refine ⟨?_, ?_, ?_, ?_⟩
          · refine ⟨c, ?_, hflspec.2, ?_⟩
            · rw [← h]
            · rw [← h]
          · intro j p hjp hpa
            rcases dealToActives_active_get s.players (generateDeck rand) j p hjp hpa
              with ⟨t, ht, he⟩
            refine ⟨{ p with hand := ((generateDeck rand).drop t).take 7, hasCalledUno := false, score := 0 }, ?_, rfl, ?_, rfl, rfl⟩
            · rw [← h]
              exact he
            · have hjlen : j < s.players.length := getElem?_bound hjp
              have hd : ((generateDeck rand).drop t).length = 108 - t := by
                rw [List.length_drop, generateDeck_length]
              rw [List.length_take, hd]
              omega
          · intro j p hjp hpi
            rw [← h]
            exact dealToActives_inactive s.players (generateDeck rand) j p hjp hpi
          · refine ⟨j0, findIdx?_spec s.players isActive j0 a hj0 hact0 hfirst, ?_⟩
            rw [← h]
            have hdeal : (dealToActives s.players (generateDeck rand)).1.findIdx?
                (fun p => p.id == a.id) = some j0 := by
              rcases dealToActives_active_get s.players (generateDeck rand) j0 a hj0
                hact0 with ⟨t, _, he⟩
              refine findIdx?_spec _ _ j0 _ he ?_ ?_
              · simp
              · intro k q hk hq
                have hkps : ∃ qq : Player, s.players[k]? = some qq ∧ q.id = qq.id := by
                  have hkb : k < s.players.length := by
                    have := getElem?_bound hq
                    rw [dealToActives_length] at this
                    exact this
                  have hsp : s.players[k]? = some s.players[k] :=
                    List.getElem?_eq_getElem hkb
                  by_cases hka : isActive (s.players[k]) = true
                  · rcases dealToActives_active_get s.players (generateDeck rand) k
                      (s.players[k]) hsp hka with ⟨t2, _, he2⟩
                    rw [he2] at hq
                    injection hq with hq2
                    exact ⟨s.players[k], hsp, by rw [← hq2]⟩
                  · simp only [Bool.not_eq_true] at hka
                    have := dealToActives_inactive s.players (generateDeck rand) k
                      (s.players[k]) hsp hka
                    rw [this] at hq
                    injection hq with hq2
                    exact ⟨s.players[k], hsp, by rw [← hq2]⟩
                rcases hkps with ⟨qq, hqq, hid⟩
                have hne := nodup_ids_ne s.players hnod k j0 qq a (by omega) hqq hj0
                rw [hid]
                simp
                exact hne
            rw [hdeal]
            rfl

set_option maxRecDepth 200000 in
/-- C8 counterexample: `nextRound` invoked mid-round (status
`PLAYING`, on `exPlayWin`) does not leave the state unchanged — the
only status it rejects is `GAME_OVER` — so calling it during play
reshuffles and re-deals, refuting the claimed LOBBY/PLAYING no-op. -/
theorem claim_C8_counterexample :
    exPlayWin.status = GameStatus.PLAYING ∧
    nextRound (fun _ => 0) exPlayWin = some exNextDuring ∧
    exNextDuring ≠ exPlayWin := by
  refine ⟨rfl, by decide, by decide⟩

set_option maxRecDepth 200000 in
/-- C8 witness: the amended statement applied to concrete states —
the `GAME_OVER` no-op on `exGameOver`, and the re-deal description on
the `ROUND_OVER` state `exRoundOver`, whose `nextRound` resumes
PLAYING with the first surviving player to move. -/
theorem claim_C8_witness :
    nextRound (fun _ => 0) exGameOver = some exGameOver ∧
    (∃ j0 : Nat, exRoundOver.players.findIdx? (fun p => isActive p) = some j0 ∧
      exAfterNextRound.currentPlayerIndex = j0) :=
  ⟨claim_C8.1 (fun _ => 0) exGameOver rfl,
   (claim_C8.2 (fun _ => 0) exRoundOver exAfterNextRound (by decide) (by decide)
     (by decide) (by decide) (by decide)).2.2.2⟩

/-- C2: for every card, top card and active color, `isValidMove`
returns `true` exactly when the card is black, or its color equals
the active color, or its kind equals the top card's kind and (for
number kinds) its value equals the top card's value; for every other
card it returns `false`. -/
theorem claim_C2 (card topCard : Card) (activeColor : CardColor) :
    isValidMove card topCard activeColor = true ↔
      isLegalMoveSpec card topCard activeColor := by
  unfold isValidMove isLegalMoveSpec
  by_cases h1 : card.color = CardColor.black
  · simp [h1]
  · by_cases h2 : card.color = activeColor
    · simp [h1, h2]
    · by_cases h3 : card.type = topCard.type
      · by_cases h4 : card.type = CardType.number
        · simp [h1, h2, h3, h4]
          tauto
        · simp [h1, h2, h3, h4]
          tauto
      · simp [h1, h2, h3]

/-- C6: `getNextPlayerIndex(offset)` walks seats from the current
seat in `direction` order with wraparound, keeps only seats holding
a non-eliminated, non-spectator player, and stops at the seat where
the `offset`-th such player is reached (`specNextSeat`); the result
is always an active seat.  (`offset ≤ 2·len` covers every offset the
server uses, keeping the loop's safety `break` out of play.) -/
theorem claim_C6 (s : GameState) (offset : Nat)
    (hdir : s.direction = 1 ∨ s.direction = -1)
    (hact : ∃ p ∈ s.players, isActive p)
    (h1 : 1 ≤ offset) (h2 : offset ≤ s.players.length * 2) :
    getNextPlayerIndex s offset = specNextSeat s offset ∧
      ∃ j, getNextPlayerIndex s offset = some j ∧ activeAt s.players j = true :=
  ⟨getNextPlayerIndex_spec s offset h1 h2,
    getNextPlayerIndex_active s offset hdir hact h1⟩

/-- C6 witness: for players `[A, B, C]` with `B` eliminated and
direction `+1`, advancing by one seat from `A` yields seat 2 (`C`),
and the loop agrees with the walk specification there. -/
theorem claim_C6_witness :
    getNextPlayerIndex exSkipElim 1 = specNextSeat exSkipElim 1 ∧
      getNextPlayerIndex exSkipElim 1 = some 2 := by
  have h := claim_C6 exSkipElim 1 (by decide) (by decide) (by decide) (by decide)
  exact ⟨h.1, by decide⟩

/-- C10: whenever the roster is non-empty and holds at least one
non-eliminated, non-spectator player (and `direction` is `±1`, its
type invariant), the seat-walk loop terminates for every
`offset ≥ 1` and returns the index of an active player; the
precondition is required: with no active seat the loop's count never
advances and the walk never finishes (modelled as fuel exhaustion,
`none`). -/
theorem claim_C10 (s : GameState) (offset : Nat)
    (_hne : s.players ≠ [])
    (hact : ∃ p ∈ s.players, isActive p)
    (hdir : s.direction = 1 ∨ s.direction = -1)
    (h1 : 1 ≤ offset) :
    (∃ j, getNextPlayerIndex s offset = some j ∧ activeAt s.players j = true) ∧
      (∀ (s2 : GameState) (off2 : Nat), 1 ≤ off2 →
        (∀ p ∈ s2.players, isActive p = false) →
        getNextPlayerIndex s2 off2 = none) := by
  constructor
  · exact getNextPlayerIndex_active s offset hdir hact h1
  · intro s2 off2 hoff2 hnone
    unfold getNextPlayerIndex
    exact nextLoop_no_active s2.players s2.direction off2 hoff2
      (no_active_seat s2.players hnone) _ _

/-- C5: `playCard(playerId, cardId, wildColor?)` is a silent no-op —
the entire session state is returned unchanged (nothing drawn,
discarded or logged) — whenever the caller is not the current
turn-holder (including an unknown `playerId`), or the turn-holder
does not own a card with id `cardId`, or the card is illegal against
the top discard and active color. -/
theorem claim_C5 (rand : Nat → Nat) (s : GameState) (playerId : String) (cardId : Nat)
    (wildColor : Option CardColor)
    (h :
      s.players.findIdx? (fun p => p.id == playerId) = none ∨
      (∃ i, s.players.findIdx? (fun p => p.id == playerId) = some i ∧
        i ≠ s.currentPlayerIndex) ∨
      (∃ i p, s.players.findIdx? (fun p => p.id == playerId) = some i ∧
        i = s.currentPlayerIndex ∧ s.players[i]? = some p ∧
        p.hand.findIdx? (fun c => c.id == cardId) = none) ∨
      (∃ i p ci card top, s.players.findIdx? (fun p => p.id == playerId) = some i ∧
        i = s.currentPlayerIndex ∧ s.players[i]? = some p ∧
        p.hand.findIdx? (fun c => c.id == cardId) = some ci ∧ p.hand[ci]? = some card ∧
        s.discardPile.getLast? = some top ∧
        isValidMove card top s.currentColor = false)) :
    playCard rand s playerId cardId wildColor = some s := by
  rcases h with h1 | ⟨i, hf, hne⟩ | ⟨i, p, hf, hcur, hp, hcf⟩ |
    ⟨i, p, ci, card, top, hf, hcur, hp, hcf, hcg, htop, hval⟩
  · simp [playCard, h1]
  · simp [playCard, hf, hne]
  · subst hcur
    simp [playCard, hf, hp, hcf]
  · subst hcur
    simp [playCard, hf, hp, hcf, hcg, htop, isValidMoveTop, hval]

/-- C5 witness: in a two-player state with seat 0 to move, a
`playCard` request from the seat-1 player is silently dropped. -/
theorem claim_C5_witness :
    playCard (fun _ => 0) exTwoPlayers "B" 1 none = some exTwoPlayers := by
  apply claim_C5
  right; left
  exact ⟨1, by decide, by decide⟩

theorem drawCards_flags (rand : Nat → Nat) (s : GameState) (i count j : Nat) :
    ((drawCards rand s i count).players[j]?).map Player.hasCalledUno =
      (s.players[j]?).map Player.hasCalledUno := by
  unfold drawCards
  dsimp only
  rcases drawCardsAux_players rand i count s.players s.deck s.discardPile with ⟨extra, he⟩
  rw [he]
  by_cases hj : j = i
  · subst hj
    rcases hp : s.players[j]? with _ | p
    · simp [modifyPlayer, hp]
    · rw [modifyPlayer_get_self _ _ _ _ hp]
      simp [hp]
  · rw [modifyPlayer_get_ne _ _ _ _ (fun hh => hj hh.symm)]

/-- C9 (amended): `callUno` sets `hasCalledUno` only while the hand
holds at most 2 cards (and is a no-op on a larger hand); inside
`playCard` the flag is reset to `false` exactly when the
post-penalty hand exceeds one card (`playUnoReset`); but drawing
never resets the flag — `drawCard` leaves every player's
`hasCalledUno` unchanged — so a player who called Uno at two cards
and then draws holds more than 2 cards with the flag still true,
refuting the claim's final sentence. -/
theorem claim_C9 :
    (∀ (s : GameState) (pid : String) (i : Nat) (player : Player),
        s.players.findIdx? (fun p => p.id == pid) = some i →
        s.players[i]? = some player → 2 < player.hand.length →
        callUno s pid = s) ∧
    (∀ (s : GameState) (pid : String) (i : Nat) (player : Player),
        s.players.findIdx? (fun p => p.id == pid) = some i →
        s.players[i]? = some player → player.hand.length ≤ 2 →
        (callUno s pid).players[i]? = some { player with hasCalledUno := true }) ∧
    (∀ (s2 : GameState) (i : Nat) (p : Player),
        1 < (handAt s2 i).length → s2.players[i]? = some p →
        (playUnoReset s2 i).players[i]? = some { p with hasCalledUno := false }) ∧
    (∀ (rand : Nat → Nat) (s s2 : GameState) (pid : String),
        drawCard rand s pid = some s2 →
        ∀ j : Nat, (s2.players[j]?).map Player.hasCalledUno =
          (s.players[j]?).map Player.hasCalledUno) := by
  refine ⟨?_, ?_, ?_, ?_⟩
  · intro s pid i player hf hp hbig
    unfold callUno
    rw [hf]
    simp only [] at hf ⊢
    rw [hp]
    simp only []
    rw [if_neg (by omega)]
  · intro s pid i player hf hp hsmall
    unfold callUno
    rw [hf]
    simp only []
    rw [hp]
    simp only []
    rw [if_pos hsmall]
    dsimp only
    exact modifyPlayer_get_self _ _ _ _ hp
  · intro s2 i p hh hp
    unfold playUnoReset
    rw [if_pos hh]
    dsimp only
    exact modifyPlayer_get_self _ _ _ _ hp
  · intro rand s s2 pid h j
    unfold drawCard at h
    rcases hf : s.players.findIdx? (fun p => p.id == pid) with _ | i
    · rw [hf] at h
      simp at h
      rw [← h]
    · rw [hf] at h
      simp only [] at h
      by_cases hcur : i ≠ s.currentPlayerIndex
      · rw [if_pos hcur] at h
        simp at h
        rw [← h]
      · rw [if_neg hcur] at h
        unfold advanceTurn at h
        rcases hg : getNextPlayerIndex _ 1 with _ | k
        · rw [hg] at h
          simp at h
        · rw [hg] at h
          simp at h
          rw [← h]
          exact drawCards_flags rand s i 1 j

/-- C9 counterexample to the claim as stated: from `exUno`, `A`
calls Uno with two cards, then draws a card — the resulting state is
reachable and has `A` holding three cards while `hasCalledUno` is
still `true`, contradicting "no reachable state has a player with
hasCalledUno = true and a hand larger than 2 cards". -/
theorem claim_C9_counterexample :
    (exUnoCalled.players[0]?).map (fun p => (p.hand.length, p.hasCalledUno)) =
        some (2, true) ∧
    drawCard (fun _ => 0) exUnoCalled "A" = some exUnoDrawn ∧
    (exUnoDrawn.players[0]?).map (fun p => (p.hand.length, p.hasCalledUno)) =
        some (3, true) := by
  refine ⟨by decide, by decide, by decide⟩

/-- C9 witness: the amended clauses evaluated on `exUno`. -/
theorem claim_C9_witness :
    (callUno exUno "A").players[0]? =
        some { mkPlayer "A" (unshuffledDeck.take 2) false false false with
          hasCalledUno := true } ∧
    drawCard (fun _ => 0) exUnoCalled "A" = some exUnoDrawn ∧
    (exUnoDrawn.players[0]?).map Player.hasCalledUno =
      (exUnoCalled.players[0]?).map Player.hasCalledUno := by
  have h := claim_C9
  refine ⟨?_, by decide, ?_⟩
  · exact h.2.1 exUno "A" 0 (mkPlayer "A" (unshuffledDeck.take 2) false false false)
      (by decide) (by decide) (by decide)
  · exact h.2.2.2 (fun _ => 0) exUnoCalled exUnoDrawn "A" (by decide) 0

/-- C10 witness: the loop terminates on the three-seat roster with an
eliminated middle seat, and diverges on an all-eliminated roster. -/
theorem claim_C10_witness :
    getNextPlayerIndex exSkipElim 1 = some 2 ∧
      getNextPlayerIndex exNoActive 1 = none := by
  have h := claim_C10 exSkipElim 1 (by decide) (by decide) (by decide) (by decide)
  refine ⟨by decide, ?_⟩
  exact h.2 exNoActive 1 (by decide) (by decide)

end Uno
